import Mathlib

set_option maxHeartbeats 1000000

/-
Verification development for a Mython-dialect interpreter:
an indentation-aware lexer (src/src/lexer.cpp), a value runtime
(src/src/runtime.cpp) and a tree-walking evaluator (src/src/statement.cpp).
The C++ sources are shallowly embedded below; theorems at the end of the
file settle the specification claims against this embedding.
-/

namespace Mython

namespace Parse

/-- Token type, mirroring the `parse::token_type` variants used in
src/src/lexer.cpp: valued tokens Number/String/Id/Char, the twelve
keyword singletons, the four relational digraphs, and the structural
tokens Newline/Indent/Dedent/Eof. -/
inductive Tok where
  | number (n : Int)
  | str (s : String)
  | id (s : String)
  | char (c : Char)
  | kwClass
  | kwReturn
  | kwIf
  | kwElse
  | kwDef
  | kwPrint
  | kwAnd
  | kwOr
  | kwNot
  | kwNone
  | kwTrue
  | kwFalse
  | eq
  | notEq
  | lessOrEq
  | greaterOrEq
  | newline
  | indent
  | dedent
  | eof
deriving DecidableEq

/-- Mirrors `Lexer::SkipComment`: consume characters up to and including the
first newline; if the stream ends first, everything is consumed. -/
def skipComment : List Char → List Char
  | [] => []
  | c :: rest => if c = '\n' then rest else skipComment rest

/-- Mirrors `Lexer::IsNonemptyLine`: count leading spaces; a newline, a
comment or end of stream makes the line blank (count 0, with the newline or
comment consumed); otherwise the first significant character is put back and
the space count returned. -/
def isNonemptyLineAux : List Char → Nat → Nat × List Char
  | [], _ => (0, [])
  | c :: rest, n =>
    if c = ' ' then isNonemptyLineAux rest (n + 1)
    else if c = '\n' then (0, rest)
    else if c = '#' then (0, skipComment rest)
    else (n, c :: rest)

/-- Mirrors `Lexer::AdjustIndentCount`: an odd space count is a lex error;
`target = spaces / 2`; one level up emits one Indent, any number of levels
down emits that many Dedents, more than one level up is a lex error.
Returns the emitted tokens and the new indent level. -/
def adjustIndentCount (ind : Nat) (spaceCount : Nat) :
    Except String (List Tok × Nat) :=
  if spaceCount % 2 = 1 then .error "Odd space count in indent"
  else if spaceCount / 2 > ind + 1 then .error "Trying to make more indent than needs"
  else if spaceCount / 2 = ind + 1 then .ok ([Tok.indent], ind + 1)
  else if spaceCount / 2 < ind then
    .ok (List.replicate (ind - spaceCount / 2) Tok.dedent, spaceCount / 2)
  else .ok ([], ind)

/-- Numeric value of a decimal digit character. -/
def digitVal (c : Char) : Nat := c.toNat - '0'.toNat

/-- Value of a run of decimal digits. -/
def natOfDigits (l : List Char) : Nat :=
  l.foldl (fun a c => a * 10 + digitVal c) 0

/-- Mirrors `Lexer::LoadNumber`: a leading `0` stands alone; otherwise a
maximal digit run; `std::stoi` overflow (beyond the 32-bit signed range)
surfaces as a lex error. The head of the input is known to be a digit. -/
def loadNumber (input : List Char) : Except String (Int × List Char) :=
  match input with
  | '0' :: rest => .ok (0, rest)
  | _ =>
    if (input.takeWhile Char.isDigit).isEmpty then .error "A digit is expected"
    else if natOfDigits (input.takeWhile Char.isDigit) ≤ 2147483647 then
      .ok (Int.ofNat (natOfDigits (input.takeWhile Char.isDigit)),
           input.dropWhile Char.isDigit)
    else .error "Unknown error while stoi(parsed_num)"

/-- The escape sequences recognized inside string literals by
`Lexer::LoadString`. -/
def escapeChar (c : Char) : Option Char :=
  if c = 'n' then some '\n'
  else if c = 't' then some '\t'
  else if c = 'r' then some '\r'
  else if c = '"' then some '"'
  else if c = '\'' then some '\''
  else if c = '\\' then some '\\'
  else none

/-- Mirrors the body of `Lexer::LoadString` after the opening quote `q` has
been consumed: read characters until the matching quote; process escape
sequences; end of stream or an unknown escape is a lex error. -/
def loadStringAux (q : Char) : List Char → List Char →
    Except String (String × List Char)
  | [], _ => .error "Eof after opened double quote"
  | c :: rest, acc =>
    if c = q then .ok (String.mk acc, rest)
    else if c = '\\' then
      match rest with
      | [] => .error "Eof after opened double quote"
      | e :: rest2 =>
        match escapeChar e with
        | some ch => loadStringAux q rest2 (acc ++ [ch])
        | none => .error ("Unrecognized escape sequence \\" ++ e.toString)
    else loadStringAux q rest (acc ++ [c])
termination_by input _ => input.length
decreasing_by all_goals simp_arith

/-- Characters of an identifier or keyword: `Lexer::LoadKeyWordOrId` stops at
a space, a newline, a `#`, or any character that is not alphanumeric or an
underscore. -/
def wordChar (c : Char) : Bool := c.isAlpha || c.isDigit || c = '_'

/-- The word read by `Lexer::LoadKeyWordOrId` together with the remaining
input. -/
def takeIdent (l : List Char) : String × List Char :=
  (String.mk (l.takeWhile wordChar), l.dropWhile wordChar)

/-- Modelled from the spec: the twelve reserved keyword spellings (the
`key_words_` table lives in lexer.h, which is not among the sources); the
spec lists `Class, Return, If, Else, Def, Print, And, Or, Not, None, True,
False` with the usual Python spellings used by scenario S2. -/
def classifyWord (s : String) : Tok :=
  if s = "class" then Tok.kwClass
  else if s = "return" then Tok.kwReturn
  else if s = "if" then Tok.kwIf
  else if s = "else" then Tok.kwElse
  else if s = "def" then Tok.kwDef
  else if s = "print" then Tok.kwPrint
  else if s = "and" then Tok.kwAnd
  else if s = "or" then Tok.kwOr
  else if s = "not" then Tok.kwNot
  else if s = "None" then Tok.kwNone
  else if s = "True" then Tok.kwTrue
  else if s = "False" then Tok.kwFalse
  else Tok.id s

/-- Modelled from the spec: the single-character punctuation set
`+-*/()[]:,.` (the `operations_` string lives in lexer.h, which is not among
the sources). -/
def operationsChars : List Char :=
  ['+', '-', '*', '/', '(', ')', '[', ']', ':', ',', '.']

/-- Mirrors the main loop of `Lexer::ReadInput`. The stream is a character
list; `lineBegin`/`streamBegin` are the `is_line_begin`/`is_stream_begin`
flags; `ind` is `indent_count`; `toks` the tokens emitted so far. Fuel bounds
the iteration count (each C++ iteration consumes input or leaves line-begin
mode); running out of fuel is reported as an error, so an `ok` result always
corresponds to a genuine successful C++ run. -/
def readLoop : Nat → List Char → Bool → Bool → Nat → List Tok →
    Except String (List Tok × Nat)
  | 0, _, _, _, _, _ => .error "lexer fuel exhausted"
  | fuel + 1, input, lineBegin, streamBegin, ind, toks =>
    match input with
    | [] => .ok (toks, ind)
    | c :: rest =>
      if c = ' ' ∧ streamBegin then .error "Space in the begining of istream"
      else if lineBegin then
        if c = '\n' then readLoop fuel rest true false ind toks
        else if c = '#' then readLoop fuel (skipComment rest) true false ind toks
        else if c = ' ' then
          match isNonemptyLineAux (c :: rest) 0 with
          | (spaceCount, rest2) =>
            if spaceCount = 0 then readLoop fuel rest2 true false ind toks
            else if toks = [] then .error "Trying to indent before any token appears"
            else
              match adjustIndentCount ind spaceCount with
              | .error e => .error e
              | .ok (em, ind2) => readLoop fuel rest2 false false ind2 (toks ++ em)
        else
          match adjustIndentCount ind 0 with
          | .error e => .error e
          | .ok (em, ind2) => readLoop fuel (c :: rest) false false ind2 (toks ++ em)
      else if c.isDigit then
        match loadNumber (c :: rest) with
        | .error e => .error e
        | .ok (n, rest2) => readLoop fuel rest2 false false ind (toks ++ [Tok.number n])
      else if c = '\'' ∨ c = '\"' then
        match loadStringAux c rest [] with
        | .error e => .error e
        | .ok (s, rest2) => readLoop fuel rest2 false false ind (toks ++ [Tok.str s])
      else if c = '_' ∨ c.isAlpha then
        match takeIdent (c :: rest) with
        | (w, rest2) => readLoop fuel rest2 false false ind (toks ++ [classifyWord w])
      else if c ∈ operationsChars then
        readLoop fuel rest false false ind (toks ++ [Tok.char c])
      else if c = '=' then
        match rest with
        | '=' :: rest2 => readLoop fuel rest2 false false ind (toks ++ [Tok.eq])
        | _ => readLoop fuel rest false false ind (toks ++ [Tok.char '='])
      else if c = '!' then
        match rest with
        | '=' :: rest2 => readLoop fuel rest2 false false ind (toks ++ [Tok.notEq])
        | _ => readLoop fuel rest false false ind toks
      else if c = '<' then
        match rest with
        | '=' :: rest2 => readLoop fuel rest2 false false ind (toks ++ [Tok.lessOrEq])
        | _ => readLoop fuel rest false false ind (toks ++ [Tok.char '<'])
      else if c = '>' then
        match rest with
        | '=' :: rest2 => readLoop fuel rest2 false false ind (toks ++ [Tok.greaterOrEq])
        | _ => readLoop fuel rest false false ind (toks ++ [Tok.char '>'])
      else if c = '#' then
        readLoop fuel (rest.dropWhile (fun x => ¬ x = '\n')) false false ind toks
      else if c = '\n' then
        readLoop fuel rest true false ind (toks ++ [Tok.newline])
      else if c = ' ' then
        readLoop fuel rest false false ind toks
      else
        readLoop fuel rest false false ind (toks ++ [Tok.char c])

/-- Mirrors the epilogue of `Lexer::ReadInput` after the character loop: a
final Newline when tokens were emitted and the last one is not a Newline,
then one Dedent per open indentation level, then Eof. -/
def epilogue (toks : List Tok) (ind : Nat) : List Tok :=
  (if toks ≠ [] ∧ toks.getLast? ≠ some Tok.newline then toks ++ [Tok.newline] else toks)
    ++ List.replicate ind Tok.dedent ++ [Tok.eof]

/-- Full tokenization of a source string, mirroring `Lexer::ReadInput`:
run the character loop from stream start at indent level 0, then append the
epilogue. The fuel `2 * length + 2` covers every iteration of the C++ loop
(each iteration consumes a character or switches off line-begin mode). -/
def lexString (s : String) : Except String (List Tok) :=
  match readLoop (2 * s.length + 2) s.toList true true 0 [] with
  | .error e => .error e
  | .ok (toks, ind) => .ok (epilogue toks ind)

/-- Tokens emitted by `AdjustIndentCount` keep the running balance: the
Indents it emits plus the entry level equal the Dedents it emits plus the
exit level. -/
lemma adjustIndentCount_counts {ind sc : Nat} {em : List Tok} {ind2 : Nat}
    (h : adjustIndentCount ind sc = .ok (em, ind2)) :
    em.count Tok.indent + ind = em.count Tok.dedent + ind2 := by
  unfold adjustIndentCount at h
  split at h
  · exact absurd h (by simp)
  · split at h
    · exact absurd h (by simp)
    · split at h
      · simp only [Except.ok.injEq, Prod.mk.injEq] at h
        obtain ⟨h1, h2⟩ := h
        subst h1; subst h2
        simp [List.count_singleton', List.count_replicate]
        omega
      · split at h
        · simp only [Except.ok.injEq, Prod.mk.injEq] at h
          obtain ⟨h1, h2⟩ := h
          subst h1; subst h2
          simp only [List.count_replicate]
          simp_all
          omega
        · simp only [Except.ok.injEq, Prod.mk.injEq] at h
          obtain ⟨h1, h2⟩ := h
          subst h1; subst h2
          simp

/-- `AdjustIndentCount` at a zero space count always lands at level 0. -/
lemma adjustIndentCount_zero {ind : Nat} {em : List Tok} {ind2 : Nat}
    (h : adjustIndentCount ind 0 = .ok (em, ind2)) : ind2 = 0 := by
  unfold adjustIndentCount at h
  split at h
  · exact absurd h (by simp)
  · split at h
    · exact absurd h (by simp)
    · split at h
      · omega
      · split at h
        · simp only [Except.ok.injEq, Prod.mk.injEq] at h
          omega
        · simp only [Except.ok.injEq, Prod.mk.injEq] at h
          omega

/-- `classifyWord` never yields a structural indentation token. -/
lemma classifyWord_not_structural (w : String) :
    ¬ classifyWord w = Tok.indent ∧ ¬ classifyWord w = Tok.dedent := by
  unfold classifyWord
  repeat' split
  all_goals simp

/-- Appending one non-Indent/non-Dedent token preserves the balance. -/
lemma count_append_single_other {toks : List Tok} {ind : Nat} {t : Tok}
    (hin : toks.count Tok.indent = toks.count Tok.dedent + ind)
    (h1 : ¬ t = Tok.indent) (h2 : ¬ t = Tok.dedent) :
    (toks ++ [t]).count Tok.indent = (toks ++ [t]).count Tok.dedent + ind := by
  simp [List.count_append, List.count_singleton', h1, h2, hin]

/-- The two `ReadInput` loop invariants, taken together: (balance) the
Indents emitted so far equal the Dedents plus the current level; (grounding)
while no token has been emitted the level is 0. Stated as a transfer from
entry `(toks, ind)` to exit `(toks', ind')`. -/
def LoopInv (toks : List Tok) (ind : Nat) (toks' : List Tok) (ind' : Nat) : Prop :=
  (toks.count Tok.indent = toks.count Tok.dedent + ind →
    toks'.count Tok.indent = toks'.count Tok.dedent + ind') ∧
  ((toks = [] → ind = 0) → (toks' = [] → ind' = 0))

/-- A loop step that appends one ordinary token preserves `LoopInv`. -/
lemma LoopInv_append_single {toks : List Tok} {ind : Nat} {toks' : List Tok}
    {ind' : Nat} (t : Tok) (h1 : ¬ t = Tok.indent) (h2 : ¬ t = Tok.dedent)
    (h : LoopInv (toks ++ [t]) ind toks' ind') : LoopInv toks ind toks' ind' :=
  ⟨fun hin => h.1 (count_append_single_other hin h1 h2),
   fun _ => h.2 (fun hh => by simp at hh)⟩

/-- A loop step through `AdjustIndentCount` with tokens already emitted
preserves `LoopInv`. -/
lemma LoopInv_adjust {toks : List Tok} {ind sc : Nat} {em : List Tok}
    {ind2 : Nat} {toks' : List Tok} {ind' : Nat}
    (heq : adjustIndentCount ind sc = .ok (em, ind2)) (hne : ¬ toks = [])
    (h : LoopInv (toks ++ em) ind2 toks' ind') : LoopInv toks ind toks' ind' := by
  refine ⟨fun hin => h.1 ?_, fun _ => h.2 (fun hh => absurd (List.append_eq_nil.mp hh).1 hne)⟩
  have hc := adjustIndentCount_counts heq
  simp [List.count_append]
  omega

/-- A loop step through `AdjustIndentCount` at space count 0 (column-zero
line) preserves `LoopInv`. -/
lemma LoopInv_adjust_zero {toks : List Tok} {ind : Nat} {em : List Tok}
    {ind2 : Nat} {toks' : List Tok} {ind' : Nat}
    (heq : adjustIndentCount ind 0 = .ok (em, ind2))
    (h : LoopInv (toks ++ em) ind2 toks' ind') : LoopInv toks ind toks' ind' := by
  refine ⟨fun hin => h.1 ?_, fun _ => h.2 (fun _ => adjustIndentCount_zero heq)⟩
  have hc := adjustIndentCount_counts heq
  simp [List.count_append]
  omega

/-- Every successful run of the `ReadInput` character loop satisfies
`LoopInv` between its entry and exit states. -/
lemma readLoop_inv : ∀ fuel input lb sb ind toks toks' ind',
    readLoop fuel input lb sb ind toks = .ok (toks', ind') →
    LoopInv toks ind toks' ind' := by
  intro fuel
  induction fuel with
  | zero =>
    intro input lb sb ind toks toks' ind' h
    simp only [readLoop] at h
    exact Except.noConfusion h
  | succ f ih =>
    intro input lb sb ind toks toks' ind' h
    cases input with
    | nil =>
      simp only [readLoop, Except.ok.injEq, Prod.mk.injEq] at h
      obtain ⟨h1, h2⟩ := h
      subst h1; subst h2
      exact ⟨fun hin => hin, fun he => he⟩
    | cons c rest =>
      simp only [readLoop] at h
      by_cases h1 : c = ' ' ∧ sb = true
      · rw [if_pos h1] at h; exact absurd h (by simp)
      rw [if_neg h1] at h
      by_cases h2 : lb = true
      · rw [if_pos h2] at h
        by_cases h3 : c = '\n'
        · rw [if_pos h3] at h
          exact ih _ _ _ _ _ _ _ h
        rw [if_neg h3] at h
        by_cases h4 : c = '#'
        · rw [if_pos h4] at h
          exact ih _ _ _ _ _ _ _ h
        rw [if_neg h4] at h
        by_cases h5 : c = ' '
        · rw [if_pos h5] at h
          split at h
          · exact ih _ _ _ _ _ _ _ h
          split at h
          · exact absurd h (by simp)
          split at h
          · exact absurd h (by simp)
          next hne _ _ _ heq =>
            exact LoopInv_adjust heq hne (ih _ _ _ _ _ _ _ h)
        · rw [if_neg h5] at h
          split at h
          · exact absurd h (by simp)
          next em ind2 heq =>
            exact LoopInv_adjust_zero heq (ih _ _ _ _ _ _ _ h)
      rw [if_neg h2] at h
      by_cases h6 : c.isDigit = true
      · rw [if_pos h6] at h
        split at h
        · exact absurd h (by simp)
        · exact LoopInv_append_single _ (by simp) (by simp) (ih _ _ _ _ _ _ _ h)
      rw [if_neg h6] at h
      by_cases h7 : c = '\'' ∨ c = '\"'
      · rw [if_pos h7] at h
        split at h
        · exact absurd h (by simp)
        · exact LoopInv_append_single _ (by simp) (by simp) (ih _ _ _ _ _ _ _ h)
      rw [if_neg h7] at h
      by_cases h8 : c = '_' ∨ c.isAlpha = true
      · rw [if_pos h8] at h
        exact LoopInv_append_single (classifyWord (takeIdent (c :: rest)).1)
          (classifyWord_not_structural _).1 (classifyWord_not_structural _).2
          (ih _ _ _ _ _ _ _ h)
      rw [if_neg h8] at h
      by_cases h9 : c ∈ operationsChars
      · rw [if_pos h9] at h
        exact LoopInv_append_single _ (by simp) (by simp) (ih _ _ _ _ _ _ _ h)
      rw [if_neg h9] at h
      by_cases h10 : c = '='
      · rw [if_pos h10] at h
        split at h
        · exact LoopInv_append_single _ (by simp) (by simp) (ih _ _ _ _ _ _ _ h)
        · exact LoopInv_append_single _ (by simp) (by simp) (ih _ _ _ _ _ _ _ h)
      rw [if_neg h10] at h
      by_cases h11 : c = '!'
      · rw [if_pos h11] at h
        split at h
        · exact LoopInv_append_single _ (by simp) (by simp) (ih _ _ _ _ _ _ _ h)
        · exact ih _ _ _ _ _ _ _ h
      rw [if_neg h11] at h
      by_cases h12 : c = '<'
      · rw [if_pos h12] at h
        split at h
        · exact LoopInv_append_single _ (by simp) (by simp) (ih _ _ _ _ _ _ _ h)
        · exact LoopInv_append_single _ (by simp) (by simp) (ih _ _ _ _ _ _ _ h)
      rw [if_neg h12] at h
      by_cases h13 : c = '>'
      · rw [if_pos h13] at h
        split at h
        · exact LoopInv_append_single _ (by simp) (by simp) (ih _ _ _ _ _ _ _ h)
        · exact LoopInv_append_single _ (by simp) (by simp) (ih _ _ _ _ _ _ _ h)
      rw [if_neg h13] at h
      by_cases h14 : c = '#'
      · rw [if_pos h14] at h
        exact ih _ _ _ _ _ _ _ h
      rw [if_neg h14] at h
      by_cases h15 : c = '\n'
      · rw [if_pos h15] at h
        exact LoopInv_append_single _ (by simp) (by simp) (ih _ _ _ _ _ _ _ h)
      rw [if_neg h15] at h
      by_cases h16 : c = ' '
      · rw [if_pos h16] at h
        exact ih _ _ _ _ _ _ _ h
      · rw [if_neg h16] at h
        exact LoopInv_append_single _ (by simp) (by simp) (ih _ _ _ _ _ _ _ h)

/-- C7: for every input byte stream that lexes successfully, the number of
Indent tokens in the resulting token sequence equals the number of Dedent
tokens. -/
theorem claim_C7_indent_dedent_balance (s : String) (ts : List Tok)
    (h : lexString s = .ok ts) : ts.count Tok.indent = ts.count Tok.dedent := by
  unfold lexString at h
  cases hr : readLoop (2 * s.length + 2) s.toList true true 0 [] with
  | error e => rw [hr] at h; exact Except.noConfusion h
  | ok p =>
    obtain ⟨toks, ind⟩ := p
    rw [hr] at h
    simp only [Except.ok.injEq] at h
    subst h
    have hbal := (readLoop_inv _ _ _ _ _ _ _ _ hr).1 (by simp)
    unfold epilogue
    split
    all_goals simp [List.count_append, List.count_replicate, List.count_singleton']
    all_goals omega

/-- C7 witness: the balance theorem applied to a two-line program with one
indented block. -/
theorem claim_C7_witness :
    List.count Tok.indent
        [Tok.id "a", Tok.newline, Tok.indent, Tok.id "b", Tok.newline,
          Tok.dedent, Tok.eof] =
      List.count Tok.dedent
        [Tok.id "a", Tok.newline, Tok.indent, Tok.id "b", Tok.newline,
          Tok.dedent, Tok.eof] :=
  claim_C7_indent_dedent_balance "a\n  b\n" _ (by rfl)

/-- C6 (amended): every successfully lexed stream that emitted at least one
token ends with a Newline, then one Dedent per open indentation level, then
Eof; a stream that emitted no tokens (for example the empty stream) lexes to
exactly `[Eof]`, with no Newline before the Eof. -/
theorem claim_C6_terminator (s : String) (ts : List Tok)
    (h : lexString s = .ok ts) :
    ts = [Tok.eof] ∨
      ∃ body k,
        ts = body ++ [Tok.newline] ++ List.replicate k Tok.dedent ++ [Tok.eof] := by
  unfold lexString at h
  cases hr : readLoop (2 * s.length + 2) s.toList true true 0 [] with
  | error e => rw [hr] at h; exact Except.noConfusion h
  | ok p =>
    obtain ⟨toks, ind⟩ := p
    rw [hr] at h
    simp only [Except.ok.injEq] at h
    subst h
    have hemp := (readLoop_inv _ _ _ _ _ _ _ _ hr).2 (fun _ => rfl)
    by_cases htoks : toks = []
    · subst htoks
      have hind : ind = 0 := hemp rfl
      subst hind
      left
      unfold epilogue
      simp
    · right
      rcases hlast : toks.getLast? with _ | t
      · exact absurd (List.getLast?_eq_none_iff.mp hlast) htoks
      · by_cases hnl : t = Tok.newline
        · subst hnl
          refine ⟨toks.dropLast, ind, ?_⟩
          unfold epilogue
          rw [if_neg (by simp [hlast])]
          have hdec : toks.dropLast ++ [Tok.newline] = toks := by
            have h1 := List.getLast?_eq_getLast toks htoks
            rw [hlast] at h1
            injection h1 with h3
            have h2 := List.dropLast_append_getLast htoks
            rw [← h3] at h2
            exact h2
          rw [← hdec]
          try simp [List.append_assoc]
        · refine ⟨toks, ind, ?_⟩
          unfold epilogue
          rw [if_pos ⟨htoks, by rw [hlast]; simp [hnl]⟩]
          try simp [List.append_assoc]

/-- C6 counterexample: the empty stream lexes successfully to exactly
`[Eof]`, so its terminal Eof is not preceded by a Newline (with or without
intervening Dedents) — the claim fails for the empty stream. -/
theorem claim_C6_counterexample :
    lexString "" = .ok [Tok.eof] ∧
    ¬ ∃ body k,
        ([Tok.eof] : List Tok) =
          body ++ [Tok.newline] ++ List.replicate k Tok.dedent ++ [Tok.eof] := by
  constructor
  · rfl
  · rintro ⟨body, k, hk⟩
    have hlen := congrArg List.length hk
    simp [List.length_append, List.length_replicate] at hlen
    omega

/-- C6 witness: the amended terminator theorem applied to the one-line
program `a`. -/
theorem claim_C6_witness :
    ([Tok.id "a", Tok.newline, Tok.eof] : List Tok) = [Tok.eof] ∨
      ∃ body k,
        ([Tok.id "a", Tok.newline, Tok.eof] : List Tok) =
          body ++ [Tok.newline] ++ List.replicate k Tok.dedent ++ [Tok.eof] :=
  claim_C6_terminator "a\n" _ (by rfl)

end Parse

namespace Rt

/-- Runtime value reached through a non-null `ObjectHolder`, mirroring the
`runtime::Object` hierarchy: Number, String, Bool, Class, ClassInstance.
Classes are referenced by index into the program's class table; instances by
index into the heap, which gives them the identity that C++ pointers give.
A null holder (`ObjectHolder::None`) is `Option.none` at use sites. -/
inductive Value where
  | num (n : Int)
  | str (s : String)
  | bool (b : Bool)
  | cls (idx : Nat)
  | inst (idx : Nat)
deriving DecidableEq

/-- The six comparators a `Comparison` node can be constructed with. -/
inductive Cmp where
  | eq
  | notEq
  | less
  | lessOrEq
  | greater
  | greaterOrEq
deriving DecidableEq

/-- Executable AST nodes, one constructor per node class of
src/src/statement.cpp. `newInstance` carries the index of the node's member
`cls_inst_` (the C++ `NewInstance` node constructs that instance when the
node itself is constructed, so it exists on the heap before evaluation).
`classDefinition` and the class of an instance are indices into the class
table. `fieldAssignment` stores the dotted ids of its `VariableValue`
target. The literal-node semantics (`numericConst` and friends yield an
owning handle to the literal) are modelled from the spec, their bodies being
in statement.h which is not among the sources. -/
inductive Stmt where
  | numericConst (n : Int)
  | stringConst (s : String)
  | boolConst (b : Bool)
  | noneConst
  | variableValue (dottedIds : List String)
  | assignment (varName : String) (rv : Stmt)
  | fieldAssignment (objectIds : List String) (fieldName : String) (rv : Stmt)
  | print (args : List Stmt)
  | methodCall (object : Stmt) (methodName : String) (args : List Stmt)
  | newInstance (instId : Nat) (args : List Stmt)
  | stringify (arg : Stmt)
  | add (lhs rhs : Stmt)
  | sub (lhs rhs : Stmt)
  | mult (lhs rhs : Stmt)
  | div (lhs rhs : Stmt)
  | orOp (lhs rhs : Stmt)
  | andOp (lhs rhs : Stmt)
  | notOp (arg : Stmt)
  | compound (stmts : List Stmt)
  | methodBody (body : Stmt)
  | retStmt (statement : Stmt)
  | classDefinition (clsIdx : Nat)
  | ifElse (condition thenBody : Stmt) (elseBody : Option Stmt)
  | comparison (cmp : Cmp) (lhs rhs : Stmt)

/-- A method: name, formal parameters (excluding `self`), body. -/
structure MethodT where
  name : String
  formalParams : List String
  body : Stmt

/-- A class: name, method list, optional parent (the C++ `Class` holds a
`const Class*` to an already-constructed parent, hence the nested option). -/
inductive ClassT where
  | mk (name : String) (methods : List MethodT) (parent : Option ClassT)

/-- Name accessor, mirroring `Class::GetName`. -/
def ClassT.name : ClassT → String
  | .mk n _ _ => n

/-- Mirrors `Class::GetMethod`: first match by name in the class's own
method list; on a miss, recurse into the parent; absent at the root. -/
def ClassT.getMethod : ClassT → String → Option MethodT
  | .mk _ ms p, n =>
    match ms.find? (fun m => m.name = n) with
    | some m => some m
    | none =>
      match p with
      | some par => par.getMethod n
      | none => none

/-- A `runtime::Closure`: identifier-to-holder mapping (also used for an
instance's field scope). Represented as an association list with upsert
semantics. -/
abbrev Closure := List (String × Option Value)

/-- Lookup in a closure, mirroring `unordered_map::count` + `at`. -/
def lookupEntry : List (String × α) → String → Option α
  | [], _ => none
  | (k, v) :: rest, key => if k = key then some v else lookupEntry rest key

/-- Upsert in a closure, mirroring `unordered_map::operator[]` assignment. -/
def setEntry : List (String × α) → String → α → List (String × α)
  | [], key, v => [(key, v)]
  | (k, w) :: rest, key, v =>
    if k = key then (k, v) :: rest else (k, w) :: setEntry rest key v

/-- A heap-resident `ClassInstance`: its class (index into the class table,
the C++ `const Class& cls_`) and its field scope. -/
structure InstData where
  clsIdx : Nat
  fields : List (String × Option Value)

/-- Evaluator state: the instance heap (instances are identified by their
index, standing in for their address) and the context's output stream. -/
structure EvalState where
  heap : List InstData
  output : String

/-- The program-wide class table (classes are owned by `ClassDefinition`
nodes and borrowed everywhere else; the table models that shared ownership). -/
structure Ctx where
  classes : List ClassT

/-- Result of executing a statement. `ret` is the `detail::ReturnObj`
exception raised by `Return` and caught only by `MethodBody`; `err` is
`std::runtime_error`; `npe` marks a null-pointer dereference (undefined
behaviour in the C++, e.g. `TryAs<Bool>()->GetValue()` on a non-Bool);
`timeout` is fuel exhaustion of the embedding, not a program behaviour. -/
inductive ERes (α : Type) where
  | ok (v : α)
  | ret (v : Option Value)
  | err (msg : String)
  | npe
  | timeout

/-- Class-table lookup. -/
def classGet (ctx : Ctx) (i : Nat) : Option ClassT := ctx.classes.get? i

/-- Heap lookup. -/
def heapGet (st : EvalState) (i : Nat) : Option InstData := st.heap.get? i

/-- Name of the class at index `i` (every index reached in a run of the C++
program is valid; the default is never exercised there). -/
def clsName (ctx : Ctx) (i : Nat) : String :=
  match classGet ctx i with
  | some c => c.name
  | none => ""

/-- The method that `instance.cls_.GetMethod(name)` finds for instance `i`. -/
def getMethodAt (ctx : Ctx) (st : EvalState) (i : Nat) (name : String) :
    Option MethodT :=
  match heapGet st i with
  | some d =>
    match classGet ctx d.clsIdx with
    | some c => c.getMethod name
    | none => none
  | none => none

/-- Mirrors `ClassInstance::HasMethod`: a method of that name exists and its
formal-parameter count equals the argument count. -/
def hasMethodAt (ctx : Ctx) (st : EvalState) (i : Nat) (name : String)
    (argc : Nat) : Bool :=
  match getMethodAt ctx st i name with
  | some m => m.formalParams.length = argc
  | none => false

/-- Mirrors `runtime::IsTrue`: null is false; Number is nonzero; String is
non-empty; Bool is its value; Class and Instance are false. -/
def isTrue : Option Value → Bool
  | none => false
  | some (.num n) => !(n = 0 : Bool)
  | some (.str s) => !s.isEmpty
  | some (.bool b) => b
  | some (.cls _) => false
  | some (.inst _) => false

/-- Mirrors `ast::detail::ThrowClassIntanceCastError`: the runtime-error
message built from the object that failed to cast to `ClassInstance`. -/
def castErrMsg (ctx : Ctx) (whereStr : String) (v : Option Value) : String :=
  match v with
  | none => "Trying to " ++ whereStr ++ " in <None> object"
  | some (.num n) => "Trying to " ++ whereStr ++ " in <number> object: " ++ toString n
  | some (.str s) => "Trying to " ++ whereStr ++ " in <string> object: \"" ++ s ++ "\""
  | some (.bool _) => "Trying to " ++ whereStr ++ " in <bool> object"
  | some (.cls i) =>
      "Trying to " ++ whereStr ++ " in <class> object: \"" ++ clsName ctx i ++ "\""
  | some (.inst _) => "Fail on cast to <runtime::ClassInstance> in " ++ whereStr

/-- Middle and final segments of `VariableValue::Execute`: each middle id is
looked up in the current instance's fields and its value cast to an
instance; the final id's field value is returned. `VariableValue` reads the
closure and the heap but never writes, so no state is returned. -/
def varChain (st : EvalState) : InstData → List String → ERes (Option Value)
  | _, [] => .npe
  | d, [lastId] =>
    match lookupEntry d.fields lastId with
    | none => .err ("No field with name \"" ++ lastId ++ "\"")
    | some v => .ok v
  | d, xid :: rest =>
    match lookupEntry d.fields xid with
    | none => .err ("No field with name \"" ++ xid ++ "\"")
    | some v =>
      match v with
      | some (.inst j) =>
        match heapGet st j with
        | some d2 => varChain st d2 rest
        | none => .npe
      | _ => .err ("Failed to cast \"" ++ xid ++ "\" to <ClassInstance>")

/-- Mirrors `VariableValue::Execute`: look up the head in the closure; a
single id returns that binding; otherwise the head's value must be an
instance and the rest of the dotted path walks its fields (`varChain`).
An empty id list is undefined behaviour in the C++ (`front()` on an empty
vector); the parser never builds one. -/
def evalVarValue (st : EvalState) (closure : Closure) :
    List String → ERes (Option Value)
  | [] => .npe
  | [x] =>
    match lookupEntry closure x with
    | none => .err ("No field with name \"" ++ x ++ "\"")
    | some v => .ok v
  | x :: rest =>
    match lookupEntry closure x with
    | none => .err ("No field with name \"" ++ x ++ "\"")
    | some v =>
      match v with
      | some (.inst j) =>
        match heapGet st j with
        | some d => varChain st d rest
        | none => .npe
      | _ => .err ("Failed to cast \"" ++ x ++ "\" to <ClassInstance>")

/-- Write field `f` of instance `i`, mirroring
`cls_inst_ptr->Fields()[field_name_] = ...`. -/
def heapSetField (st : EvalState) (i : Nat) (f : String) (v : Option Value) :
    EvalState :=
  match st.heap.get? i with
  | some d => { st with heap := st.heap.set i { d with fields := setEntry d.fields f v } }
  | none => st

/-- Parameter binding loop of `ClassInstance::Call`: bind each formal
parameter to the corresponding actual argument (the arity check has already
ensured equal lengths). -/
def bindParams (cl : Closure) : List String → List (Option Value) → Closure
  | p :: ps, v :: vs => bindParams (setEntry cl p v) ps vs
  | _, _ => cl

/-- Text the C++ writes for an instance without `__str__` (`os << this`):
the pointer value, an unspecified opaque token; the heap index stands in for
the address. -/
def instAddr (i : Nat) : String := "<instance " ++ toString i ++ ">"

mutual

/-- Mirrors `Statement::Execute` of every AST node class in
src/src/statement.cpp. Fuel bounds the call/recursion depth; every C++ run
that terminates is reproduced by all sufficiently large fuels. -/
def evalStmt (ctx : Ctx) (fuel : Nat) (stmt : Stmt) (cl : Closure)
    (st : EvalState) : ERes (Option Value) × Closure × EvalState :=
  match fuel with
  | 0 => (.timeout, cl, st)
  | f + 1 =>
    match stmt with
    | .numericConst n => (.ok (some (.num n)), cl, st)
    | .stringConst s => (.ok (some (.str s)), cl, st)
    | .boolConst b => (.ok (some (.bool b)), cl, st)
    | .noneConst => (.ok none, cl, st)
    | .variableValue ids => (evalVarValue st cl ids, cl, st)
    | .assignment name rv =>
      match evalStmt ctx f rv cl st with
      | (.ok v, cl1, st1) => (.ok v, setEntry cl1 name v, st1)
      | other => other
    | .fieldAssignment ids fname rv =>
      match evalVarValue st cl ids with
      | .ok v =>
        match v with
        | some (.inst i) =>
          match evalStmt ctx f rv cl st with
          | (.ok w, cl1, st1) => (.ok w, cl1, heapSetField st1 i fname w)
          | other => other
        | _ =>
          match evalVarValue st cl ids with
          | .ok v2 => (.err (castErrMsg ctx "FieldAssignment" v2), cl, st)
          | .err m => (.err m, cl, st)
          | .ret r => (.ret r, cl, st)
          | .npe => (.npe, cl, st)
          | .timeout => (.timeout, cl, st)
      | .err m => (.err m, cl, st)
      | .ret r => (.ret r, cl, st)
      | .npe => (.npe, cl, st)
      | .timeout => (.timeout, cl, st)
    | .print args =>
      match evalPrintArgs ctx f args false cl st with
      | (.ok _, cl1, st1) => (.ok none, cl1, { st1 with output := st1.output ++ "\n" })
      | (.ret r, cl1, st1) => (.ret r, cl1, st1)
      | (.err m, cl1, st1) => (.err m, cl1, st1)
      | (.npe, cl1, st1) => (.npe, cl1, st1)
      | (.timeout, cl1, st1) => (.timeout, cl1, st1)
    | .methodCall obj m args =>
      match evalStmt ctx f obj cl st with
      | (.ok v, cl1, st1) =>
        match v with
        | some (.inst i) =>
          match evalArgs ctx f args cl1 st1 with
          | (.ok vs, cl2, st2) =>
            match callMethod ctx f i m vs st2 with
            | (r, st3) => (r, cl2, st3)
          | (.ret r, cl2, st2) => (.ret r, cl2, st2)
          | (.err e, cl2, st2) => (.err e, cl2, st2)
          | (.npe, cl2, st2) => (.npe, cl2, st2)
          | (.timeout, cl2, st2) => (.timeout, cl2, st2)
        | _ =>
          match evalStmt ctx f obj cl1 st1 with
          | (.ok v2, cl2, st2) => (.err (castErrMsg ctx "MethodCall" v2), cl2, st2)
          | other => other
      | other => other
    | .newInstance i args =>
      if hasMethodAt ctx st i "__init__" args.length then
        match evalArgs ctx f args cl st with
        | (.ok vs, cl1, st1) =>
          match callMethod ctx f i "__init__" vs st1 with
          | (.ok _, st2) => (.ok (some (.inst i)), cl1, st2)
          | (.ret r, st2) => (.ret r, cl1, st2)
          | (.err m, st2) => (.err m, cl1, st2)
          | (.npe, st2) => (.npe, cl1, st2)
          | (.timeout, st2) => (.timeout, cl1, st2)
        | (.ret r, cl1, st1) => (.ret r, cl1, st1)
        | (.err m, cl1, st1) => (.err m, cl1, st1)
        | (.npe, cl1, st1) => (.npe, cl1, st1)
        | (.timeout, cl1, st1) => (.timeout, cl1, st1)
      else (.ok (some (.inst i)), cl, st)
    | .stringify a =>
      match evalStmt ctx f a cl st with
      | (.ok v, cl1, st1) =>
        match v with
        | none => (.ok (some (.str "None")), cl1, st1)
        | some x =>
          match printValue ctx f x st1 with
          | (.ok s, st2) => (.ok (some (.str s)), cl1, st2)
          | (.ret r, st2) => (.ret r, cl1, st2)
          | (.err m, st2) => (.err m, cl1, st2)
          | (.npe, st2) => (.npe, cl1, st2)
          | (.timeout, st2) => (.timeout, cl1, st2)
      | other => other
    | .add l r =>
      match evalStmt ctx f l cl st with
      | (.ok lv, cl1, st1) =>
        match evalStmt ctx f r cl1 st1 with
        | (.ok rv, cl2, st2) =>
          match lv, rv with
          | some (.num a), some (.num b) => (.ok (some (.num (a + b))), cl2, st2)
          | some (.str a), some (.str b) => (.ok (some (.str (a ++ b))), cl2, st2)
          | some (.inst i), _ =>
            if hasMethodAt ctx st2 i "__add__" 1 then
              match callMethod ctx f i "__add__" [rv] st2 with
              | (r2, st3) => (r2, cl2, st3)
            else (.err "Failed on Add operation", cl2, st2)
          | _, _ => (.err "Failed on Add operation", cl2, st2)
        | other => other
      | other => other
    | .sub l r =>
      match evalStmt ctx f l cl st with
      | (.ok lv, cl1, st1) =>
        match evalStmt ctx f r cl1 st1 with
        | (.ok rv, cl2, st2) =>
          match lv, rv with
          | some (.num a), some (.num b) => (.ok (some (.num (a - b))), cl2, st2)
          | _, _ => (.err "Failed on Sub operation", cl2, st2)
        | other => other
      | other => other
    | .mult l r =>
      match evalStmt ctx f l cl st with
      | (.ok lv, cl1, st1) =>
        match evalStmt ctx f r cl1 st1 with
        | (.ok rv, cl2, st2) =>
          match lv, rv with
          | some (.num a), some (.num b) => (.ok (some (.num (a * b))), cl2, st2)
          | _, _ => (.err "Failed on Mult operation", cl2, st2)
        | other => other
      | other => other
    | .div l r =>
      match evalStmt ctx f l cl st with
      | (.ok lv, cl1, st1) =>
        match evalStmt ctx f r cl1 st1 with
        | (.ok rv, cl2, st2) =>
          match lv, rv with
          | some (.num a), some (.num b) =>
            if b = 0 then (.err "Failed on Div operation", cl2, st2)
            else (.ok (some (.num (Int.tdiv a b))), cl2, st2)
          | _, _ => (.err "Failed on Div operation", cl2, st2)
        | other => other
      | other => other
    | .orOp l r =>
      match evalStmt ctx f l cl st with
      | (.ok lv, cl1, st1) =>
        match evalStmt ctx f r cl1 st1 with
        | (.ok rv, cl2, st2) => (.ok (some (.bool (isTrue lv || isTrue rv))), cl2, st2)
        | other => other
      | other => other
    | .andOp l r =>
      match evalStmt ctx f l cl st with
      | (.ok lv, cl1, st1) =>
        match evalStmt ctx f r cl1 st1 with
        | (.ok rv, cl2, st2) => (.ok (some (.bool (isTrue lv && isTrue rv))), cl2, st2)
        | other => other
      | other => other
    | .notOp a =>
      match evalStmt ctx f a cl st with
      | (.ok v, cl1, st1) => (.ok (some (.bool (!isTrue v))), cl1, st1)
      | other => other
    | .compound stmts => evalSeq ctx f stmts cl st
    | .methodBody b =>
      match evalStmt ctx f b cl st with
      | (.ok _, cl1, st1) => (.ok none, cl1, st1)
      | (.ret r, cl1, st1) => (.ok r, cl1, st1)
      | other => other
    | .retStmt s =>
      match evalStmt ctx f s cl st with
      | (.ok v, cl1, st1) =>
        match v with
        | some x => (.ret (some x), cl1, st1)
        | none => (.ok none, cl1, st1)
      | other => other
    | .classDefinition i =>
      (.ok (some (.cls i)), setEntry cl (clsName ctx i) (some (.cls i)), st)
    | .ifElse c tB eB =>
      match evalStmt ctx f c cl st with
      | (.ok v, cl1, st1) =>
        if isTrue v then evalStmt ctx f tB cl1 st1
        else
          match eB with
          | some e => evalStmt ctx f e cl1 st1
          | none => (.ok none, cl1, st1)
      | other => other
    | .comparison cmp l r =>
      match evalStmt ctx f l cl st with
      | (.ok lv, cl1, st1) =>
        match evalStmt ctx f r cl1 st1 with
        | (.ok rv, cl2, st2) =>
          match applyCmp ctx f cmp lv rv st2 with
          | (.ok b, st3) => (.ok (some (.bool b)), cl2, st3)
          | (.ret r2, st3) => (.ret r2, cl2, st3)
          | (.err m, st3) => (.err m, cl2, st3)
          | (.npe, st3) => (.npe, cl2, st3)
          | (.timeout, st3) => (.timeout, cl2, st3)
        | other => other
      | other => other

/-- The statement loop of `Compound::Execute`: run each child, discarding
values; any raised signal escapes; yields null at the end. -/
def evalSeq (ctx : Ctx) (fuel : Nat) (stmts : List Stmt) (cl : Closure)
    (st : EvalState) : ERes (Option Value) × Closure × EvalState :=
  match fuel with
  | 0 => (.timeout, cl, st)
  | f + 1 =>
    match stmts with
    | [] => (.ok none, cl, st)
    | s :: rest =>
      match evalStmt ctx f s cl st with
      | (.ok _, cl1, st1) => evalSeq ctx f rest cl1 st1
      | other => other

/-- The argument-evaluation loop of `MethodCall::Execute` and
`NewInstance::Execute`: left to right, collecting values. -/
def evalArgs (ctx : Ctx) (fuel : Nat) (stmts : List Stmt) (cl : Closure)
    (st : EvalState) : ERes (List (Option Value)) × Closure × EvalState :=
  match fuel with
  | 0 => (.timeout, cl, st)
  | f + 1 =>
    match stmts with
    | [] => (.ok [], cl, st)
    | s :: rest =>
      match evalStmt ctx f s cl st with
      | (.ok v, cl1, st1) =>
        match evalArgs ctx f rest cl1 st1 with
        | (.ok vs, cl2, st2) => (.ok (v :: vs), cl2, st2)
        | (.ret r, cl2, st2) => (.ret r, cl2, st2)
        | (.err m, cl2, st2) => (.err m, cl2, st2)
        | (.npe, cl2, st2) => (.npe, cl2, st2)
        | (.timeout, cl2, st2) => (.timeout, cl2, st2)
      | (.ret r, cl1, st1) => (.ret r, cl1, st1)
      | (.err m, cl1, st1) => (.err m, cl1, st1)
      | (.npe, cl1, st1) => (.npe, cl1, st1)
      | (.timeout, cl1, st1) => (.timeout, cl1, st1)

/-- The argument loop of `Print::Execute`: a single space before every
argument but the first (written before the argument is evaluated), `None`
for a null holder, otherwise the value's print form. -/
def evalPrintArgs (ctx : Ctx) (fuel : Nat) (stmts : List Stmt)
    (notFirst : Bool) (cl : Closure) (st : EvalState) :
    ERes Unit × Closure × EvalState :=
  match fuel with
  | 0 => (.timeout, cl, st)
  | f + 1 =>
    match stmts with
    | [] => (.ok (), cl, st)
    | a :: rest =>
      let st0 := if notFirst then { st with output := st.output ++ " " } else st
      match evalStmt ctx f a cl st0 with
      | (.ok v, cl1, st1) =>
        match v with
        | none => evalPrintArgs ctx f rest true cl1 { st1 with output := st1.output ++ "None" }
        | some x =>
          match printValue ctx f x st1 with
          | (.ok s, st2) =>
            evalPrintArgs ctx f rest true cl1 { st2 with output := st2.output ++ s }
          | (.ret r, st2) => (.ret r, cl1, st2)
          | (.err m, st2) => (.err m, cl1, st2)
          | (.npe, st2) => (.npe, cl1, st2)
          | (.timeout, st2) => (.timeout, cl1, st2)
      | (.ret r, cl1, st1) => (.ret r, cl1, st1)
      | (.err m, cl1, st1) => (.err m, cl1, st1)
      | (.npe, cl1, st1) => (.npe, cl1, st1)
      | (.timeout, cl1, st1) => (.timeout, cl1, st1)

/-- Mirrors `ClassInstance::Call`: arity-checked lookup (else a runtime
error), a fresh closure binding `self` to a non-owning share of the receiver
and the formal parameters to the actual arguments, then the method body. The
body's result — or any signal it raises, the return signal included — is
passed through. -/
def callMethod (ctx : Ctx) (fuel : Nat) (i : Nat) (name : String)
    (args : List (Option Value)) (st : EvalState) :
    ERes (Option Value) × EvalState :=
  match fuel with
  | 0 => (.timeout, st)
  | f + 1 =>
    if hasMethodAt ctx st i name args.length then
      match getMethodAt ctx st i name with
      | some m =>
        let cl0 : Closure := setEntry [] "self" (some (.inst i))
        match evalStmt ctx f m.body (bindParams cl0 m.formalParams args) st with
        | (r, _, st1) => (r, st1)
      | none => (.npe, st)
    else (.err ("No such method \"" ++ name ++ "\" or wrong count of arguments"), st)

/-- Mirrors `runtime::Equal`: two null holders are equal; one null holder is
an error; same-kind Number/String/Bool compare by value; an instance on the
left with `__eq__` of one parameter dispatches, the result being read
through `TryAs<Bool>()->GetValue()` with no null check (a non-Bool result is
a null-pointer dereference, not an error); anything else is an error. -/
def equalFn (ctx : Ctx) (fuel : Nat) (lhs rhs : Option Value)
    (st : EvalState) : ERes Bool × EvalState :=
  match fuel with
  | 0 => (.timeout, st)
  | f + 1 =>
    match lhs, rhs with
    | none, none => (.ok true, st)
    | none, some _ => (.err "Cannot compare objects for equality", st)
    | some _, none => (.err "Cannot compare objects for equality", st)
    | some l, some r =>
      match l, r with
      | .num a, .num b => (.ok (a = b : Bool), st)
      | .str a, .str b => (.ok (a = b : Bool), st)
      | .bool a, .bool b => (.ok (a = b : Bool), st)
      | .inst i, _ =>
        if hasMethodAt ctx st i "__eq__" 1 then
          match callMethod ctx f i "__eq__" [some r] st with
          | (.ok v, st1) =>
            match v with
            | some (.bool b) => (.ok b, st1)
            | _ => (.npe, st1)
          | (.ret r2, st1) => (.ret r2, st1)
          | (.err m, st1) => (.err m, st1)
          | (.npe, st1) => (.npe, st1)
          | (.timeout, st1) => (.timeout, st1)
        else (.err "Cannot compare objects for equality", st)
      | _, _ => (.err "Cannot compare objects for equality", st)

/-- Mirrors `runtime::Less`: any null holder is an error (two nulls
included); same-kind Number/String/Bool use the natural order; an instance
on the left with `__lt__` of one parameter dispatches through the same
unchecked `TryAs<Bool>()->GetValue()`; anything else is an error. -/
def lessFn (ctx : Ctx) (fuel : Nat) (lhs rhs : Option Value)
    (st : EvalState) : ERes Bool × EvalState :=
  match fuel with
  | 0 => (.timeout, st)
  | f + 1 =>
    match lhs, rhs with
    | none, _ => (.err "Cannot compare objects for less", st)
    | some _, none => (.err "Cannot compare objects for less", st)
    | some l, some r =>
      match l, r with
      | .num a, .num b => (.ok (a < b : Bool), st)
      | .str a, .str b => (.ok (a < b : Bool), st)
      | .bool a, .bool b => (.ok (!a && b), st)
      | .inst i, _ =>
        if hasMethodAt ctx st i "__lt__" 1 then
          match callMethod ctx f i "__lt__" [some r] st with
          | (.ok v, st1) =>
            match v with
            | some (.bool b) => (.ok b, st1)
            | _ => (.npe, st1)
          | (.ret r2, st1) => (.ret r2, st1)
          | (.err m, st1) => (.err m, st1)
          | (.npe, st1) => (.npe, st1)
          | (.timeout, st1) => (.timeout, st1)
        else (.err "Cannot compare objects for less", st)
      | _, _ => (.err "Cannot compare objects for less", st)

/-- The comparator a `Comparison` node applies, as the parser wires the
runtime comparison functions into the node: `Eq`/`Less` call `Equal`/`Less`
directly, and the remaining four compose them exactly as the pointwise
definitions at the bottom of src/src/runtime.cpp do (`Greater` consults
`Equal` only when `Less` returned false, mirroring `&&` short-circuiting). -/
def applyCmp (ctx : Ctx) (fuel : Nat) (cmp : Cmp) (l r : Option Value)
    (st : EvalState) : ERes Bool × EvalState :=
  match fuel with
  | 0 => (.timeout, st)
  | f + 1 =>
    match cmp with
    | .eq => equalFn ctx f l r st
    | .less => lessFn ctx f l r st
    | .notEq =>
      match equalFn ctx f l r st with
      | (.ok b, st1) => (.ok (!b), st1)
      | other => other
    | .greater =>
      match lessFn ctx f l r st with
      | (.ok true, st1) => (.ok false, st1)
      | (.ok false, st1) =>
        match equalFn ctx f l r st1 with
        | (.ok b, st2) => (.ok (!b), st2)
        | other => other
      | other => other
    | .lessOrEq =>
      match applyCmp ctx f .greater l r st with
      | (.ok b, st1) => (.ok (!b), st1)
      | other => other
    | .greaterOrEq =>
      match lessFn ctx f l r st with
      | (.ok b, st1) => (.ok (!b), st1)
      | other => other

/-- Mirrors `Object::Print` per value kind, returning the text written to
the stream. For an instance: if its class has `__str__` of zero parameters,
call it (its own side effects land in the state) and print the result,
which is handled only for Number/String/Class/Instance results — a Bool or
null result prints nothing; without `__str__` the instance's address-token
is printed. -/
def printValue (ctx : Ctx) (fuel : Nat) (v : Value) (st : EvalState) :
    ERes String × EvalState :=
  match fuel with
  | 0 => (.timeout, st)
  | f + 1 =>
    match v with
    | .num n => (.ok (toString n), st)
    | .str s => (.ok s, st)
    | .bool b => (.ok (if b then "True" else "False"), st)
    | .cls i => (.ok ("Class " ++ clsName ctx i), st)
    | .inst i =>
      if hasMethodAt ctx st i "__str__" 0 then
        match callMethod ctx f i "__str__" [] st with
        | (.ok v2, st1) =>
          match v2 with
          | some (.num n) => (.ok (toString n), st1)
          | some (.str s) => (.ok s, st1)
          | some (.cls j) => (.ok ("Class " ++ clsName ctx j), st1)
          | some (.inst j) => printValue ctx f (.inst j) st1
          | some (.bool _) => (.ok "", st1)
          | none => (.ok "", st1)
        | (.ret r, st1) => (.ret r, st1)
        | (.err m, st1) => (.err m, st1)
        | (.npe, st1) => (.npe, st1)
        | (.timeout, st1) => (.timeout, st1)
      else (.ok (instAddr i), st)

end

/-- Mirrors `runtime::NotEqual`: the negation of `Equal`. -/
def notEqualFn (ctx : Ctx) (fuel : Nat) (l r : Option Value)
    (st : EvalState) : ERes Bool × EvalState :=
  match equalFn ctx fuel l r st with
  | (.ok b, st1) => (.ok (!b), st1)
  | other => other

/-- Mirrors `runtime::Greater`: `!Less(lhs, rhs) && !Equal(lhs, rhs)`, with
`Equal` consulted only when `Less` returned false (`&&` short-circuits). -/
def greaterFn (ctx : Ctx) (fuel : Nat) (l r : Option Value)
    (st : EvalState) : ERes Bool × EvalState :=
  match lessFn ctx fuel l r st with
  | (.ok true, st1) => (.ok false, st1)
  | (.ok false, st1) =>
    match equalFn ctx fuel l r st1 with
    | (.ok b, st2) => (.ok (!b), st2)
    | other => other
  | other => other

/-- Mirrors `runtime::LessOrEqual`: the negation of `Greater`. -/
def lessOrEqualFn (ctx : Ctx) (fuel : Nat) (l r : Option Value)
    (st : EvalState) : ERes Bool × EvalState :=
  match greaterFn ctx fuel l r st with
  | (.ok b, st1) => (.ok (!b), st1)
  | other => other

/-- Mirrors `runtime::GreaterOrEqual`: the negation of `Less`. -/
def greaterOrEqualFn (ctx : Ctx) (fuel : Nat) (l r : Option Value)
    (st : EvalState) : ERes Bool × EvalState :=
  match lessFn ctx fuel l r st with
  | (.ok b, st1) => (.ok (!b), st1)
  | other => other

/-- Mirrors the `NewInstance` node constructor together with
`ClassInstance::ClassInstance`: constructing the node creates its member
instance `cls_inst_`, whose field scope is seeded with `self` bound to a
non-owning share of the instance itself. Returns the extended heap and the
new instance's index. -/
def newInstanceOnHeap (st : EvalState) (clsIdx : Nat) : EvalState × Nat :=
  (⟨st.heap ++ [⟨clsIdx, [("self", some (.inst st.heap.length))]⟩], st.output⟩,
   st.heap.length)

/-! Concrete fixtures used by witnesses and counterexamples. -/

/-- An empty class table. -/
def emptyCtx : Ctx := ⟨[]⟩

/-- The empty evaluator state. -/
def emptyState : EvalState := ⟨[], ""⟩

/-- A class with no methods. -/
def plainClass : ClassT := .mk "C" [] none

/-- Table holding only `plainClass`. -/
def plainCtx : Ctx := ⟨[plainClass]⟩

/-- State after constructing one `NewInstance` node for `plainClass`: its
member instance sits at heap index 0. -/
def plainState : EvalState := (newInstanceOnHeap emptyState 0).1

/-- C1 counterexample: evaluating the same `NewInstance` node twice (as
happens whenever the node sits in a method that is called twice) returns the
same instance both times — heap index 0, the node's member `cls_inst_` — and
the heap never grows, so no fresh instance is created and the two results
are not distinct. -/
theorem claim_C1_counterexample :
    evalStmt plainCtx 2 (Stmt.newInstance 0 []) [] plainState =
      (.ok (some (Value.inst 0)), [], plainState) ∧
    evalStmt plainCtx 2 (Stmt.newInstance 0 [])
        (evalStmt plainCtx 2 (Stmt.newInstance 0 []) [] plainState).2.1
        (evalStmt plainCtx 2 (Stmt.newInstance 0 []) [] plainState).2.2 =
      (.ok (some (Value.inst 0)), [], plainState) :=
  ⟨rfl, rfl⟩

/-- C1 (amended): `NewInstance::Execute` always returns a (non-owning) handle
to the node's member instance, created once at node construction: every
successful evaluation of the node `newInstance i args` yields exactly
`inst i`, so repeated evaluations yield the same instance rather than fresh
ones; when no `__init__` of matching arity exists, the state is untouched
and the same instance is returned directly. -/
theorem claim_C1_newInstance (ctx : Ctx) (f i : Nat) (args : List Stmt)
    (cl : Closure) (st : EvalState) :
    (∀ r cl' st',
      evalStmt ctx (f + 1) (.newInstance i args) cl st = (.ok r, cl', st') →
      r = some (Value.inst i)) ∧
    (hasMethodAt ctx st i "__init__" args.length = false →
      evalStmt ctx (f + 1) (.newInstance i args) cl st =
        (.ok (some (Value.inst i)), cl, st)) := by
  constructor
  · intro r cl' st' h
    simp only [evalStmt] at h
    split at h
    · split at h
      · split at h
        all_goals simp_all
      all_goals simp_all
    · simp_all
  · intro hno
    simp only [evalStmt, hno]
    simp

/-- C1 witness: the amended theorem applied to the `plainClass` node (no
`__init__`, so no call is made and the member instance is returned as is). -/
theorem claim_C1_witness :
    evalStmt plainCtx 1 (Stmt.newInstance 0 []) [] plainState =
      (.ok (some (Value.inst 0)), [], plainState) :=
  (claim_C1_newInstance plainCtx 0 0 [] [] plainState).2 (by rfl)

/-- C2: `Return` evaluates its expression; a present value raises the
non-local return signal carrying it, which passes through a `Compound`
without executing the remaining statements and is caught by `MethodBody`,
which yields the carried value; a `None` value raises nothing and execution
continues normally past the return. -/
theorem claim_C2_return_semantics (ctx : Ctx) (f : Nat) (e b s : Stmt)
    (rest : List Stmt) (cl : Closure) (st : EvalState) (v : Value)
    (rv : Option Value) (cl1 : Closure) (st1 : EvalState) :
    (evalStmt ctx f e cl st = (.ok (some v), cl1, st1) →
      evalStmt ctx (f + 1) (.retStmt e) cl st = (.ret (some v), cl1, st1)) ∧
    (evalStmt ctx f e cl st = (.ok none, cl1, st1) →
      evalStmt ctx (f + 1) (.retStmt e) cl st = (.ok none, cl1, st1)) ∧
    (evalStmt ctx f s cl st = (.ret rv, cl1, st1) →
      evalSeq ctx (f + 1) (s :: rest) cl st = (.ret rv, cl1, st1)) ∧
    (evalStmt ctx f b cl st = (.ret rv, cl1, st1) →
      evalStmt ctx (f + 1) (.methodBody b) cl st = (.ok rv, cl1, st1)) := by
  refine ⟨fun h => ?_, fun h => ?_, fun h => ?_, fun h => ?_⟩
  · simp only [evalStmt, h]
  · simp only [evalStmt, h]
  · simp only [evalSeq, h]
  · simp only [evalStmt, h]

/-- C2 witness: `return 5` raises the signal carrying 5; a method body over
it yields 5; `return None` yields `None` normally. -/
theorem claim_C2_witness :
    evalStmt emptyCtx 2 (.retStmt (.numericConst 5)) [] emptyState =
      (.ret (some (.num 5)), [], emptyState) :=
  (claim_C2_return_semantics emptyCtx 1 (.numericConst 5) .noneConst
      .noneConst [] [] emptyState (.num 5) none [] emptyState).1 rfl

/-- C5: `And` and `Or` evaluate both operands, left first, regardless of the
left operand's truthiness, and return a fresh Bool of the conjunction
(disjunction) of the operands' truthiness; the right operand's state effects
(and, in particular, a runtime error it raises) always take place. -/
theorem claim_C5_strict_and_or (ctx : Ctx) (f : Nat) (l r : Stmt)
    (cl : Closure) (st : EvalState) (v1 v2 : Option Value) (m : String)
    (cl1 cl2 : Closure) (st1 st2 : EvalState) :
    (evalStmt ctx f l cl st = (.ok v1, cl1, st1) →
      evalStmt ctx f r cl1 st1 = (.ok v2, cl2, st2) →
      evalStmt ctx (f + 1) (.orOp l r) cl st =
        (.ok (some (.bool (isTrue v1 || isTrue v2))), cl2, st2)) ∧
    (evalStmt ctx f l cl st = (.ok v1, cl1, st1) →
      evalStmt ctx f r cl1 st1 = (.err m, cl2, st2) →
      evalStmt ctx (f + 1) (.orOp l r) cl st = (.err m, cl2, st2)) ∧
    (evalStmt ctx f l cl st = (.ok v1, cl1, st1) →
      evalStmt ctx f r cl1 st1 = (.ok v2, cl2, st2) →
      evalStmt ctx (f + 1) (.andOp l r) cl st =
        (.ok (some (.bool (isTrue v1 && isTrue v2))), cl2, st2)) ∧
    (evalStmt ctx f l cl st = (.ok v1, cl1, st1) →
      evalStmt ctx f r cl1 st1 = (.err m, cl2, st2) →
      evalStmt ctx (f + 1) (.andOp l r) cl st = (.err m, cl2, st2)) := by
  refine ⟨fun h1 h2 => ?_, fun h1 h2 => ?_, fun h1 h2 => ?_, fun h1 h2 => ?_⟩
  all_goals simp only [evalStmt, h1, h2]

/-- C5 witness: in `True or (1 / 0)` the left operand is already truthy, yet
the division by zero in the right operand is evaluated and its runtime error
surfaces. -/
theorem claim_C5_witness :
    evalStmt emptyCtx 3
        (.orOp (.boolConst true) (.div (.numericConst 1) (.numericConst 0)))
        [] emptyState =
      (.err "Failed on Div operation", [], emptyState) :=
  (claim_C5_strict_and_or emptyCtx 2 (.boolConst true)
      (.div (.numericConst 1) (.numericConst 0)) [] emptyState
      (some (.bool true)) none "Failed on Div operation" [] [] emptyState
      emptyState).2.1 rfl rfl

/-- C9: when the receiver of a `MethodCall` (or the target of a
`FieldAssignment`) evaluates to a non-Instance value, the receiver (target)
expression is executed a second time to build the error message: the raised
runtime error carries the second evaluation's value and the final
closure/state are those after the second evaluation, so any side effects of
the receiver happen twice. The `FieldAssignment` target is a `VariableValue`,
which reads but never writes, so there its second run returns the same value
in the same state. -/
theorem claim_C9_double_evaluation (ctx : Ctx) (f : Nat) (obj rv : Stmt)
    (m fname : String) (args : List Stmt) (ids : List String) (cl : Closure)
    (st : EvalState) (v v2 : Option Value) (cl1 cl2 : Closure)
    (st1 st2 : EvalState) :
    (evalStmt ctx f obj cl st = (.ok v, cl1, st1) →
      (∀ j, v ≠ some (.inst j)) →
      evalStmt ctx f obj cl1 st1 = (.ok v2, cl2, st2) →
      evalStmt ctx (f + 1) (.methodCall obj m args) cl st =
        (.err (castErrMsg ctx "MethodCall" v2), cl2, st2)) ∧
    (evalVarValue st cl ids = .ok v →
      (∀ j, v ≠ some (.inst j)) →
      evalStmt ctx (f + 1) (.fieldAssignment ids fname rv) cl st =
        (.err (castErrMsg ctx "FieldAssignment" v), cl, st)) := by
  constructor
  · intro h1 hv h2
    rcases v with _ | x
    · simp only [evalStmt, h1, h2]
    · rcases x with n | s | b | i | i
      · simp only [evalStmt, h1, h2]
      · simp only [evalStmt, h1, h2]
      · simp only [evalStmt, h1, h2]
      · simp only [evalStmt, h1, h2]
      · exact absurd rfl (hv i)
  · intro h1 hv
    rcases v with _ | x
    · simp only [evalStmt, h1]
    · rcases x with n | s | b | i | i
      · simp only [evalStmt, h1]
      · simp only [evalStmt, h1]
      · simp only [evalStmt, h1]
      · simp only [evalStmt, h1]
      · exact absurd rfl (hv i)

/-- Receiver with a visible side effect: `x = x + 1`. -/
def bumpX : Stmt := .assignment "x" (.add (.variableValue ["x"]) (.numericConst 1))

/-- C9 witness: calling a method on `(x = x + 1)` with `x` initially 0 fails
with the cast error built from the second evaluation's value 2, and leaves
`x = 2` — the increment ran twice. -/
theorem claim_C9_witness :
    evalStmt emptyCtx 4 (.methodCall bumpX "m" []) [("x", some (.num 0))]
        emptyState =
      (.err (castErrMsg emptyCtx "MethodCall" (some (.num 2))),
        [("x", some (.num 2))], emptyState) :=
  (claim_C9_double_evaluation emptyCtx 3 bumpX .noneConst "m" "f" [] []
      [("x", some (.num 0))] emptyState (some (.num 1)) (some (.num 2))
      [("x", some (.num 1))] [("x", some (.num 2))] emptyState emptyState).1
    rfl (fun j h => by simp at h) rfl

/-- C10: when the left operand of `Equal` (respectively `Less`) is an
instance whose `__eq__` (`__lt__`) of one parameter completes with a value
that is not a Bool, the comparison does not raise a runtime error: the
result of `TryAs<Bool>()` is dereferenced without a null check, which is the
null-pointer-dereference outcome `npe`; only under the precondition that the
dunder returned a Bool does the comparison produce that Bool. -/
theorem claim_C10_unchecked_bool_cast (ctx : Ctx) (f i : Nat) (r : Value)
    (st st1 : EvalState) (v : Option Value) (b : Bool) :
    (hasMethodAt ctx st i "__eq__" 1 = true →
      callMethod ctx f i "__eq__" [some r] st = (.ok v, st1) →
      (∀ bb, v ≠ some (.bool bb)) →
      equalFn ctx (f + 1) (some (.inst i)) (some r) st = (.npe, st1)) ∧
    (hasMethodAt ctx st i "__eq__" 1 = true →
      callMethod ctx f i "__eq__" [some r] st = (.ok (some (.bool b)), st1) →
      equalFn ctx (f + 1) (some (.inst i)) (some r) st = (.ok b, st1)) ∧
    (hasMethodAt ctx st i "__lt__" 1 = true →
      callMethod ctx f i "__lt__" [some r] st = (.ok v, st1) →
      (∀ bb, v ≠ some (.bool bb)) →
      lessFn ctx (f + 1) (some (.inst i)) (some r) st = (.npe, st1)) ∧
    (hasMethodAt ctx st i "__lt__" 1 = true →
      callMethod ctx f i "__lt__" [some r] st = (.ok (some (.bool b)), st1) →
      lessFn ctx (f + 1) (some (.inst i)) (some r) st = (.ok b, st1)) := by
  refine ⟨fun hhas hcall hv => ?_, fun hhas hcall => ?_,
    fun hhas hcall hv => ?_, fun hhas hcall => ?_⟩
  · rcases v with _ | x
    · simp only [equalFn, hhas, if_true, hcall]
    · rcases x with n | s | bb | j | j
      · simp only [equalFn, hhas, if_true, hcall]
      · simp only [equalFn, hhas, if_true, hcall]
      · exact absurd rfl (hv bb)
      · simp only [equalFn, hhas, if_true, hcall]
      · simp only [equalFn, hhas, if_true, hcall]
  · simp only [equalFn, hhas, if_true, hcall]
  · rcases v with _ | x
    · simp only [lessFn, hhas, if_true, hcall]
    · rcases x with n | s | bb | j | j
      · simp only [lessFn, hhas, if_true, hcall]
      · simp only [lessFn, hhas, if_true, hcall]
      · exact absurd rfl (hv bb)
      · simp only [lessFn, hhas, if_true, hcall]
      · simp only [lessFn, hhas, if_true, hcall]
  · simp only [lessFn, hhas, if_true, hcall]

/-- A class whose `__eq__` and `__lt__` return a Number instead of a Bool. -/
def badDunderClass : ClassT := .mk "E"
  [⟨"__eq__", ["o"], .methodBody (.retStmt (.numericConst 7))⟩,
   ⟨"__lt__", ["o"], .methodBody (.retStmt (.numericConst 8))⟩]
  none

/-- Table holding only `badDunderClass`. -/
def badDunderCtx : Ctx := ⟨[badDunderClass]⟩

/-- C10 witness: with `__eq__` returning the Number 7, `Equal` on the
instance ends in the null dereference, not a runtime error. -/
theorem claim_C10_witness :
    equalFn badDunderCtx 5 (some (.inst 0)) (some (.num 1)) plainState =
      (.npe, plainState) :=
  (claim_C10_unchecked_bool_cast badDunderCtx 4 0 (.num 1) plainState
      plainState (some (.num 7)) true).1 rfl rfl (fun bb h => by simp at h)

/-- The combinations §4.2 of the spec declares comparable by `Equal`
(written from the spec's words, to state the claim's "every other
combination" clause): two absent operands, same-kind Number/String/Bool, or
a left Instance whose class has `__eq__` of one parameter. -/
def specEqualDefined (ctx : Ctx) (st : EvalState) (l r : Option Value) : Bool :=
  match l, r with
  | none, none => true
  | some (.num _), some (.num _) => true
  | some (.str _), some (.str _) => true
  | some (.bool _), some (.bool _) => true
  | some (.inst i), some _ => hasMethodAt ctx st i "__eq__" 1
  | _, _ => false

/-- C3: `Equal` declares two absent operands equal; compares same-kind
Number/String/Bool operands by value; with an Instance on the left whose
class has `__eq__` of one parameter it dispatches to that method whatever
the right operand is (the right operand's class is never consulted — the
dispatch equation holds uniformly in `r`, and a primitive left operand next
to an Instance right operand falls into the error clause); and every
combination outside `specEqualDefined` — exactly one absent operand
included — raises the runtime error. -/
theorem claim_C3_equal_spec (ctx : Ctx) (f : Nat) (st : EvalState) :
    (equalFn ctx (f + 1) none none st = (.ok true, st)) ∧
    (∀ v, equalFn ctx (f + 1) (some v) none st =
      (.err "Cannot compare objects for equality", st)) ∧
    (∀ v, equalFn ctx (f + 1) none (some v) st =
      (.err "Cannot compare objects for equality", st)) ∧
    (∀ a b : Int, equalFn ctx (f + 1) (some (.num a)) (some (.num b)) st =
      (.ok (a = b : Bool), st)) ∧
    (∀ a b : String, equalFn ctx (f + 1) (some (.str a)) (some (.str b)) st =
      (.ok (a = b : Bool), st)) ∧
    (∀ a b : Bool, equalFn ctx (f + 1) (some (.bool a)) (some (.bool b)) st =
      (.ok (a = b : Bool), st)) ∧
    (∀ i r, hasMethodAt ctx st i "__eq__" 1 = true →
      equalFn ctx (f + 1) (some (.inst i)) (some r) st =
        (match callMethod ctx f i "__eq__" [some r] st with
        | (.ok (some (.bool b)), st1) => (.ok b, st1)
        | (.ok _, st1) => (.npe, st1)
        | (.ret r2, st1) => (.ret r2, st1)
        | (.err m, st1) => (.err m, st1)
        | (.npe, st1) => (.npe, st1)
        | (.timeout, st1) => (.timeout, st1))) ∧
    (∀ l r, specEqualDefined ctx st l r = false →
      equalFn ctx (f + 1) l r st =
        (.err "Cannot compare objects for equality", st)) := by
  refine ⟨rfl, fun v => rfl, fun v => rfl, fun a b => rfl, fun a b => rfl,
    fun a b => rfl, fun i r hhas => ?_, fun l r hdef => ?_⟩
  · simp only [equalFn, hhas, if_true]
    rcases hc : callMethod ctx f i "__eq__" [some r] st with ⟨res, st1⟩
    rcases res with v | rv | m | _ | _
    · rcases v with _ | x
      · rfl
      · rcases x with n | s | b | j | j <;> rfl
    all_goals rfl
  · rcases l with _ | x <;> rcases r with _ | y
    · simp [specEqualDefined] at hdef
    · rfl
    · rfl
    · rcases x with n | s | b | j | j <;> rcases y with n2 | s2 | b2 | j2 | j2 <;>
        first
        | rfl
        | (simp [specEqualDefined] at hdef
           done)
        | (simp only [specEqualDefined] at hdef
           simp [equalFn, hdef])

/-- C3 witness: a same-kind comparison and a mixed-kind comparison, by the
value-comparison and error clauses of the theorem. -/
theorem claim_C3_witness :
    equalFn emptyCtx 1 (some (.num 2)) (some (.num 2)) emptyState =
      (.ok true, emptyState) ∧
    equalFn emptyCtx 1 (some (.num 1)) (some (.str "a")) emptyState =
      (.err "Cannot compare objects for equality", emptyState) :=
  ⟨(claim_C3_equal_spec emptyCtx 0 emptyState).2.2.2.1 2 2,
   (claim_C3_equal_spec emptyCtx 0 emptyState).2.2.2.2.2.2.2
     (some (.num 1)) (some (.str "a")) rfl⟩

/-- C4: on any pair of values (and any state) where `Less` and `Equal` both
succeed, with results `bl` and `be`, the four derived comparison functions
of runtime.cpp satisfy the pointwise identities
`Greater = !Less && !Equal`, `LessOrEqual = !Greater`,
`GreaterOrEqual = !Less`, `NotEqual = !Equal`. -/
theorem claim_C4_relational_identities (ctx : Ctx) (fuel : Nat)
    (l r : Option Value) (st : EvalState) (bl be : Bool)
    (hl : lessFn ctx fuel l r st = (.ok bl, st))
    (he : equalFn ctx fuel l r st = (.ok be, st)) :
    greaterFn ctx fuel l r st = (.ok (!bl && !be), st) ∧
    lessOrEqualFn ctx fuel l r st = (.ok (!(!bl && !be)), st) ∧
    greaterOrEqualFn ctx fuel l r st = (.ok (!bl), st) ∧
    notEqualFn ctx fuel l r st = (.ok (!be), st) := by
  cases bl <;>
    simp [greaterFn, lessOrEqualFn, greaterOrEqualFn, notEqualFn, hl, he]

/-- C4 witness: the identities instantiated on the numbers 1 and 2, where
`Less` yields true and `Equal` yields false. -/
theorem claim_C4_witness :
    greaterFn emptyCtx 1 (some (.num 1)) (some (.num 2)) emptyState =
      (.ok false, emptyState) ∧
    lessOrEqualFn emptyCtx 1 (some (.num 1)) (some (.num 2)) emptyState =
      (.ok true, emptyState) ∧
    greaterOrEqualFn emptyCtx 1 (some (.num 1)) (some (.num 2)) emptyState =
      (.ok false, emptyState) ∧
    notEqualFn emptyCtx 1 (some (.num 1)) (some (.num 2)) emptyState =
      (.ok true, emptyState) :=
  claim_C4_relational_identities emptyCtx 1 (some (.num 1)) (some (.num 2))
    emptyState true false rfl rfl

mutual

/-- No `FieldAssignment` whose field name is `self` occurs anywhere in the
statement (the one evaluator operation that writes into an instance's field
scope). -/
def noSelfAssign : Stmt → Bool
  | .numericConst _ => true
  | .stringConst _ => true
  | .boolConst _ => true
  | .noneConst => true
  | .variableValue _ => true
  | .assignment _ rv => noSelfAssign rv
  | .fieldAssignment _ f rv => (f != "self") && noSelfAssign rv
  | .print args => noSelfAssignList args
  | .methodCall o _ args => noSelfAssign o && noSelfAssignList args
  | .newInstance _ args => noSelfAssignList args
  | .stringify a => noSelfAssign a
  | .add l r => noSelfAssign l && noSelfAssign r
  | .sub l r => noSelfAssign l && noSelfAssign r
  | .mult l r => noSelfAssign l && noSelfAssign r
  | .div l r => noSelfAssign l && noSelfAssign r
  | .orOp l r => noSelfAssign l && noSelfAssign r
  | .andOp l r => noSelfAssign l && noSelfAssign r
  | .notOp a => noSelfAssign a
  | .compound ss => noSelfAssignList ss
  | .methodBody b => noSelfAssign b
  | .retStmt s => noSelfAssign s
  | .classDefinition _ => true
  | .ifElse c t e =>
    noSelfAssign c && noSelfAssign t &&
      (match e with
      | some x => noSelfAssign x
      | none => true)
  | .comparison _ l r => noSelfAssign l && noSelfAssign r

/-- `noSelfAssign` over a statement list. -/
def noSelfAssignList : List Stmt → Bool
  | [] => true
  | s :: rest => noSelfAssign s && noSelfAssignList rest

end

/-- Every method body reachable from the class (own methods and the whole
parent chain) satisfies `noSelfAssign`. -/
def classOK : ClassT → Bool
  | .mk _ ms p =>
    ms.all (fun m => noSelfAssign m.body) &&
      (match p with
      | some par => classOK par
      | none => true)

/-- `classOK` over the whole class table. -/
def ctxOK (ctx : Ctx) : Bool := ctx.classes.all classOK

/-- The `self` invariant over a state: every heap instance's field scope
binds `self` to a handle to that same instance. -/
def SelfOk (st : EvalState) : Prop :=
  ∀ i d, st.heap.get? i = some d →
    lookupEntry d.fields "self" = some (some (Value.inst i))

/-- Executable check of `SelfOk`, used to discharge it on concrete states. -/
def selfOkB (st : EvalState) : Bool :=
  (List.range st.heap.length).all (fun i =>
    match st.heap.get? i with
    | some d => lookupEntry d.fields "self" == some (some (Value.inst i))
    | none => true)

lemma selfOk_of_selfOkB {st : EvalState} (h : selfOkB st = true) : SelfOk st := by
  intro i d hg
  have hi : i < st.heap.length := by
    by_contra hlt
    rw [List.get?_eq_none.mpr (by omega)] at hg
    exact Option.noConfusion hg
  simp only [selfOkB, List.all_eq_true] at h
  have h2 := h i (List.mem_range.mpr hi)
  rw [hg] at h2
  simpa using h2

lemma lookupEntry_setEntry_ne {α : Type} {l : List (String × α)}
    {k k' : String} {v : α} (h : ¬ k = k') :
    lookupEntry (setEntry l k v) k' = lookupEntry l k' := by
  induction l with
  | nil => simp [setEntry, lookupEntry, h]
  | cons p rest ih =>
    obtain ⟨pk, pv⟩ := p
    by_cases hp : pk = k
    · subst hp
      simp [setEntry, lookupEntry, h]
    · simp [setEntry, lookupEntry, hp, ih]

/-- Writing any field other than `self` preserves the `self` invariant. -/
lemma selfOk_heapSetField {st : EvalState} {i : Nat} {f : String}
    {v : Option Value} (hs : SelfOk st) (hf : ¬ f = "self") :
    SelfOk (heapSetField st i f v) := by
  intro j d hj
  unfold heapSetField at hj
  cases hg : st.heap.get? i with
  | none => rw [hg] at hj; exact hs j d hj
  | some d0 =>
    rw [hg] at hj
    by_cases hij : i = j
    · subst hij
      have hlen : i < st.heap.length := by
        by_contra hlt
        rw [List.get?_eq_none.mpr (by omega)] at hg
        exact Option.noConfusion hg
      rw [List.get?_set_eq_of_lt _ hlen] at hj
      simp only [Option.some.injEq] at hj
      subst hj
      simp only []
      rw [lookupEntry_setEntry_ne hf]
      exact hs i d0 hg
    · rw [List.get?_set_ne _ _ hij] at hj
      exact hs j d hj

/-- `GetMethod` only ever returns methods of `classOK` classes, whose bodies
satisfy `noSelfAssign`. -/
lemma classOK_getMethod {n : String} {m : MethodT} :
    ∀ c : ClassT, classOK c = true → c.getMethod n = some m →
      noSelfAssign m.body = true
  | .mk nm ms p => by
    intro hok hgm
    cases p with
    | none =>
      simp only [ClassT.getMethod] at hgm
      simp only [classOK, Bool.and_eq_true, List.all_eq_true] at hok
      obtain ⟨hall, -⟩ := hok
      split at hgm
      next mm hfind =>
        injection hgm with he
        subst he
        exact hall _ (List.mem_of_find?_eq_some hfind)
      next => exact Option.noConfusion hgm
    | some par =>
      simp only [ClassT.getMethod] at hgm
      simp only [classOK, Bool.and_eq_true, List.all_eq_true] at hok
      obtain ⟨hall, hpar⟩ := hok
      split at hgm
      next mm hfind =>
        injection hgm with he
        subst he
        exact hall _ (List.mem_of_find?_eq_some hfind)
      next => exact classOK_getMethod par hpar hgm

/-- A class returned by the class table of a `ctxOK` table is `classOK`. -/
lemma ctxOK_classGet {ctx : Ctx} {i : Nat} {c : ClassT}
    (hok : ctxOK ctx = true) (hg : classGet ctx i = some c) :
    classOK c = true := by
  simp only [ctxOK, List.all_eq_true] at hok
  exact hok c (List.get?_mem hg)

/-- Any method found through `getMethodAt` in a `ctxOK` table has a
`noSelfAssign` body. -/
lemma getMethodAt_noSelfAssign {ctx : Ctx} {st : EvalState} {i : Nat}
    {n : String} {m : MethodT} (hctx : ctxOK ctx = true)
    (hg : getMethodAt ctx st i n = some m) : noSelfAssign m.body = true := by
  unfold getMethodAt at hg
  split at hg
  next d _ =>
    split at hg
    next c hc => exact classOK_getMethod c (ctxOK_classGet hctx hc) hg
    next => exact Option.noConfusion hg
  next => exact Option.noConfusion hg

/-- The `self` invariant holds for a conditional's result state whenever it
holds for both branches' result states (evaluator triples). -/
lemma selfOk_ite3 {c : Prop} [Decidable c]
    {A B : ERes (Option Value) × Closure × EvalState}
    (hA : SelfOk A.2.2) (hB : SelfOk B.2.2) :
    SelfOk ((if c then A else B).2.2) := by
  split
  · exact hA
  · exact hB

/-- The `self` invariant holds for a conditional's result state whenever it
holds for both branches' result states (result-state pairs). -/
lemma selfOk_iteP {α : Type} {c : Prop} [Decidable c] {A B : α × EvalState}
    (hA : SelfOk A.2) (hB : SelfOk B.2) : SelfOk ((if c then A else B).2) := by
  split
  · exact hA
  · exact hB

/-- Fuel-indexed preservation of the `self` invariant across every mutual
evaluator entry point, for programs and class tables free of field
assignments to `self`: every heap instance keeps `self` bound to itself
through any evaluation, on success, error and return-signal paths alike. -/
theorem selfOk_preservation (ctx : Ctx) (hctx : ctxOK ctx = true) :
    ∀ fuel : Nat,
    (∀ stmt cl st, noSelfAssign stmt = true → SelfOk st →
      SelfOk (evalStmt ctx fuel stmt cl st).2.2) ∧
    (∀ ss cl st, noSelfAssignList ss = true → SelfOk st →
      SelfOk (evalSeq ctx fuel ss cl st).2.2) ∧
    (∀ ss cl st, noSelfAssignList ss = true → SelfOk st →
      SelfOk (evalArgs ctx fuel ss cl st).2.2) ∧
    (∀ ss nf cl st, noSelfAssignList ss = true → SelfOk st →
      SelfOk (evalPrintArgs ctx fuel ss nf cl st).2.2) ∧
    (∀ i name args st, SelfOk st →
      SelfOk (callMethod ctx fuel i name args st).2) ∧
    (∀ l r st, SelfOk st → SelfOk (equalFn ctx fuel l r st).2) ∧
    (∀ l r st, SelfOk st → SelfOk (lessFn ctx fuel l r st).2) ∧
    (∀ cp l r st, SelfOk st → SelfOk (applyCmp ctx fuel cp l r st).2) ∧
    (∀ v st, SelfOk st → SelfOk (printValue ctx fuel v st).2) := by
  intro fuel
  induction fuel with
  | zero =>
    exact ⟨fun _ _ _ _ hs => hs, fun _ _ _ _ hs => hs, fun _ _ _ _ hs => hs,
      fun _ _ _ _ _ hs => hs, fun _ _ _ _ hs => hs, fun _ _ _ hs => hs,
      fun _ _ _ hs => hs, fun _ _ _ _ hs => hs, fun _ _ hs => hs⟩
  | succ f ih =>
    obtain ⟨ihS, ihSeq, ihA, ihP, ihC, ihE, ihL, ihCmp, ihPr⟩ := ih
    refine ⟨?_, ?_, ?_, ?_, ?_, ?_, ?_, ?_, ?_⟩
    · intro stmt cl st hok hs
      cases stmt with
      | numericConst n => exact hs
      | stringConst s => exact hs
      | boolConst b => exact hs
      | noneConst => exact hs
      | variableValue ids => exact hs
      | classDefinition i => exact hs
      | assignment nm rv =>
        rcases he : evalStmt ctx f rv cl st with ⟨res1, cl1, st1⟩
        have h1 : SelfOk st1 := by have hx := ihS rv cl st hok hs; rwa [he] at hx
        simp only [evalStmt, he]
        cases res1 <;> exact h1
      | fieldAssignment ids fname rv =>
        obtain ⟨hne, hrv⟩ : ¬ fname = "self" ∧ noSelfAssign rv = true := by
          simpa [noSelfAssign, noSelfAssignList] using hok
        cases hv : evalVarValue st cl ids with
        | ok v =>
          rcases v with _ | x
          · simp only [evalStmt, hv]; exact hs
          · cases x with
            | inst i =>
              rcases he : evalStmt ctx f rv cl st with ⟨res1, cl1, st1⟩
              have h1 : SelfOk st1 := by
                have hx := ihS rv cl st hrv hs; rwa [he] at hx
              simp only [evalStmt, hv, he]
              cases res1 with
              | ok w => exact selfOk_heapSetField h1 hne
              | ret r => exact h1
              | err m => exact h1
              | npe => exact h1
              | timeout => exact h1
            | num n => simp only [evalStmt, hv]; exact hs
            | str s => simp only [evalStmt, hv]; exact hs
            | bool b => simp only [evalStmt, hv]; exact hs
            | cls c => simp only [evalStmt, hv]; exact hs
        | ret r => simp only [evalStmt, hv]; exact hs
        | err m => simp only [evalStmt, hv]; exact hs
        | npe => simp only [evalStmt, hv]; exact hs
        | timeout => simp only [evalStmt, hv]; exact hs
      | print args =>
        rcases he : evalPrintArgs ctx f args false cl st with ⟨res1, cl1, st1⟩
        have h1 : SelfOk st1 := by
          have hx := ihP args false cl st hok hs; rwa [he] at hx
        simp only [evalStmt, he]
        cases res1 <;> exact h1
      | methodCall obj mn args =>
        obtain ⟨ho, hargs⟩ : noSelfAssign obj = true ∧ noSelfAssignList args = true := by
          simpa [noSelfAssign, noSelfAssignList] using hok
        rcases he1 : evalStmt ctx f obj cl st with ⟨res1, cl1, st1⟩
        have h1 : SelfOk st1 := by have hx := ihS obj cl st ho hs; rwa [he1] at hx
        simp only [evalStmt, he1]
        cases res1 with
        | ok v =>
          rcases v with _ | x
          · rcases he2 : evalStmt ctx f obj cl1 st1 with ⟨res2, cl2, st2⟩
            have h2 : SelfOk st2 := by
              have hx := ihS obj cl1 st1 ho h1; rwa [he2] at hx
            try simp only [he2]
            cases res2 <;> exact h2
          · cases x with
            | inst i =>
              rcases ha : evalArgs ctx f args cl1 st1 with ⟨resA, cl2, st2⟩
              have h2 : SelfOk st2 := by
                have hx := ihA args cl1 st1 hargs h1; rwa [ha] at hx
              try simp only [ha]
              cases resA with
              | ok vs =>
                rcases hc : callMethod ctx f i mn vs st2 with ⟨r3, st3⟩
                have h3 : SelfOk st3 := by
                  have hx := ihC i mn vs st2 h2; rwa [hc] at hx
                try simp only [hc]
                exact h3
              | ret r => exact h2
              | err m => exact h2
              | npe => exact h2
              | timeout => exact h2
            | num n =>
              rcases he2 : evalStmt ctx f obj cl1 st1 with ⟨res2, cl2, st2⟩
              have h2 : SelfOk st2 := by
                have hx := ihS obj cl1 st1 ho h1; rwa [he2] at hx
              try simp only [he2]
              cases res2 <;> exact h2
            | str s =>
              rcases he2 : evalStmt ctx f obj cl1 st1 with ⟨res2, cl2, st2⟩
              have h2 : SelfOk st2 := by
                have hx := ihS obj cl1 st1 ho h1; rwa [he2] at hx
              try simp only [he2]
              cases res2 <;> exact h2
            | bool b =>
              rcases he2 : evalStmt ctx f obj cl1 st1 with ⟨res2, cl2, st2⟩
              have h2 : SelfOk st2 := by
                have hx := ihS obj cl1 st1 ho h1; rwa [he2] at hx
              try simp only [he2]
              cases res2 <;> exact h2
            | cls c =>
              rcases he2 : evalStmt ctx f obj cl1 st1 with ⟨res2, cl2, st2⟩
              have h2 : SelfOk st2 := by
                have hx := ihS obj cl1 st1 ho h1; rwa [he2] at hx
              try simp only [he2]
              cases res2 <;> exact h2
        | ret r => exact h1
        | err m => exact h1
        | npe => exact h1
        | timeout => exact h1
      | newInstance i args =>
        refine selfOk_ite3 ?_ hs
        · rcases ha : evalArgs ctx f args cl st with ⟨resA, cl1, st1⟩
          have h1 : SelfOk st1 := by
            have hx := ihA args cl st hok hs; rwa [ha] at hx
          try simp only [ha]
          cases resA with
          | ok vs =>
            rcases hc : callMethod ctx f i "__init__" vs st1 with ⟨r2, st2⟩
            have h2 : SelfOk st2 := by
              have hx := ihC i "__init__" vs st1 h1; rwa [hc] at hx
            try simp only [hc]
            cases r2 <;> exact h2
          | ret r => exact h1
          | err m => exact h1
          | npe => exact h1
          | timeout => exact h1
      | stringify a =>
        rcases he : evalStmt ctx f a cl st with ⟨res1, cl1, st1⟩
        have h1 : SelfOk st1 := by have hx := ihS a cl st hok hs; rwa [he] at hx
        simp only [evalStmt, he]
        cases res1 with
        | ok v =>
          rcases v with _ | x
          · exact h1
          · rcases hp : printValue ctx f x st1 with ⟨rs, st2⟩
            have h2 : SelfOk st2 := by have hx := ihPr x st1 h1; rwa [hp] at hx
            try simp only [hp]
            cases rs <;> exact h2
        | ret r => exact h1
        | err m => exact h1
        | npe => exact h1
        | timeout => exact h1
      | add l r =>
        obtain ⟨hl, hr⟩ : noSelfAssign l = true ∧ noSelfAssign r = true := by
          simpa [noSelfAssign, noSelfAssignList] using hok
        rcases he1 : evalStmt ctx f l cl st with ⟨res1, cl1, st1⟩
        have h1 : SelfOk st1 := by have hx := ihS l cl st hl hs; rwa [he1] at hx
        rcases he2 : evalStmt ctx f r cl1 st1 with ⟨res2, cl2, st2⟩
        have h2 : SelfOk st2 := by have hx := ihS r cl1 st1 hr h1; rwa [he2] at hx
        simp only [evalStmt, he1]
        cases res1 with
        | ok v1 =>
          try simp only [he2]
          cases res2 with
          | ok v2 =>
            rcases v1 with _ | x1
            · exact h2
            · cases x1 with
              | inst i => exact selfOk_ite3 (ihC i "__add__" [v2] st2 h2) h2
              | num n =>
                rcases v2 with _ | x2
                · exact h2
                · cases x2 <;> exact h2
              | str sv =>
                rcases v2 with _ | x2
                · exact h2
                · cases x2 <;> exact h2
              | bool b => exact h2
              | cls c => exact h2
          | ret rr => exact h2
          | err m => exact h2
          | npe => exact h2
          | timeout => exact h2
        | ret rr => exact h1
        | err m => exact h1
        | npe => exact h1
        | timeout => exact h1
      | sub l r =>
        obtain ⟨hl, hr⟩ : noSelfAssign l = true ∧ noSelfAssign r = true := by
          simpa [noSelfAssign, noSelfAssignList] using hok
        rcases he1 : evalStmt ctx f l cl st with ⟨res1, cl1, st1⟩
        have h1 : SelfOk st1 := by have hx := ihS l cl st hl hs; rwa [he1] at hx
        rcases he2 : evalStmt ctx f r cl1 st1 with ⟨res2, cl2, st2⟩
        have h2 : SelfOk st2 := by have hx := ihS r cl1 st1 hr h1; rwa [he2] at hx
        simp only [evalStmt, he1]
        cases res1 with
        | ok v1 =>
          try simp only [he2]
          cases res2 with
          | ok v2 =>
            rcases v1 with _ | x1
            · exact h2
            · cases x1 with
              | num n =>
                rcases v2 with _ | x2
                · exact h2
                · cases x2 <;> exact h2
              | str sv => exact h2
              | bool b => exact h2
              | cls c => exact h2
              | inst i => exact h2
          | ret rr => exact h2
          | err m => exact h2
          | npe => exact h2
          | timeout => exact h2
        | ret rr => exact h1
        | err m => exact h1
        | npe => exact h1
        | timeout => exact h1
      | mult l r =>
        obtain ⟨hl, hr⟩ : noSelfAssign l = true ∧ noSelfAssign r = true := by
          simpa [noSelfAssign, noSelfAssignList] using hok
        rcases he1 : evalStmt ctx f l cl st with ⟨res1, cl1, st1⟩
        have h1 : SelfOk st1 := by have hx := ihS l cl st hl hs; rwa [he1] at hx
        rcases he2 : evalStmt ctx f r cl1 st1 with ⟨res2, cl2, st2⟩
        have h2 : SelfOk st2 := by have hx := ihS r cl1 st1 hr h1; rwa [he2] at hx
        simp only [evalStmt, he1]
        cases res1 with
        | ok v1 =>
          try simp only [he2]
          cases res2 with
          | ok v2 =>
            rcases v1 with _ | x1
            · exact h2
            · cases x1 with
              | num n =>
                rcases v2 with _ | x2
                · exact h2
                · cases x2 <;> exact h2
              | str sv => exact h2
              | bool b => exact h2
              | cls c => exact h2
              | inst i => exact h2
          | ret rr => exact h2
          | err m => exact h2
          | npe => exact h2
          | timeout => exact h2
        | ret rr => exact h1
        | err m => exact h1
        | npe => exact h1
        | timeout => exact h1
      | div l r =>
        obtain ⟨hl, hr⟩ : noSelfAssign l = true ∧ noSelfAssign r = true := by
          simpa [noSelfAssign, noSelfAssignList] using hok
        rcases he1 : evalStmt ctx f l cl st with ⟨res1, cl1, st1⟩
        have h1 : SelfOk st1 := by have hx := ihS l cl st hl hs; rwa [he1] at hx
        rcases he2 : evalStmt ctx f r cl1 st1 with ⟨res2, cl2, st2⟩
        have h2 : SelfOk st2 := by have hx := ihS r cl1 st1 hr h1; rwa [he2] at hx
        simp only [evalStmt, he1]
        cases res1 with
        | ok v1 =>
          try simp only [he2]
          cases res2 with
          | ok v2 =>
            rcases v1 with _ | x1
            · exact h2
            · cases x1 with
              | num n =>
                rcases v2 with _ | x2
                · exact h2
                · cases x2 with
                  | num n2 => exact selfOk_ite3 h2 h2
                  | str sv => exact h2
                  | bool b => exact h2
                  | cls c => exact h2
                  | inst i => exact h2
              | str sv => exact h2
              | bool b => exact h2
              | cls c => exact h2
              | inst i => exact h2
          | ret rr => exact h2
          | err m => exact h2
          | npe => exact h2
          | timeout => exact h2
        | ret rr => exact h1
        | err m => exact h1
        | npe => exact h1
        | timeout => exact h1
      | orOp l r =>
        obtain ⟨hl, hr⟩ : noSelfAssign l = true ∧ noSelfAssign r = true := by
          simpa [noSelfAssign, noSelfAssignList] using hok
        rcases he1 : evalStmt ctx f l cl st with ⟨res1, cl1, st1⟩
        have h1 : SelfOk st1 := by have hx := ihS l cl st hl hs; rwa [he1] at hx
        rcases he2 : evalStmt ctx f r cl1 st1 with ⟨res2, cl2, st2⟩
        have h2 : SelfOk st2 := by have hx := ihS r cl1 st1 hr h1; rwa [he2] at hx
        simp only [evalStmt, he1]
        cases res1 with
        | ok v1 =>
          try simp only [he2]
          cases res2 <;> exact h2
        | ret rr => exact h1
        | err m => exact h1
        | npe => exact h1
        | timeout => exact h1
      | andOp l r =>
        obtain ⟨hl, hr⟩ : noSelfAssign l = true ∧ noSelfAssign r = true := by
          simpa [noSelfAssign, noSelfAssignList] using hok
        rcases he1 : evalStmt ctx f l cl st with ⟨res1, cl1, st1⟩
        have h1 : SelfOk st1 := by have hx := ihS l cl st hl hs; rwa [he1] at hx
        rcases he2 : evalStmt ctx f r cl1 st1 with ⟨res2, cl2, st2⟩
        have h2 : SelfOk st2 := by have hx := ihS r cl1 st1 hr h1; rwa [he2] at hx
        simp only [evalStmt, he1]
        cases res1 with
        | ok v1 =>
          try simp only [he2]
          cases res2 <;> exact h2
        | ret rr => exact h1
        | err m => exact h1
        | npe => exact h1
        | timeout => exact h1
      | notOp a =>
        rcases he : evalStmt ctx f a cl st with ⟨res1, cl1, st1⟩
        have h1 : SelfOk st1 := by have hx := ihS a cl st hok hs; rwa [he] at hx
        simp only [evalStmt, he]
        cases res1 <;> exact h1
      | compound ss => exact ihSeq ss cl st hok hs
      | methodBody b =>
        rcases he : evalStmt ctx f b cl st with ⟨res, cl1, st1⟩
        have h1 : SelfOk st1 := by have hx := ihS b cl st hok hs; rwa [he] at hx
        simp only [evalStmt, he]
        cases res <;> exact h1
      | retStmt s =>
        rcases he : evalStmt ctx f s cl st with ⟨res, cl1, st1⟩
        have h1 : SelfOk st1 := by have hx := ihS s cl st hok hs; rwa [he] at hx
        simp only [evalStmt, he]
        cases res with
        | ok v => rcases v with _ | x <;> exact h1
        | ret r => exact h1
        | err m => exact h1
        | npe => exact h1
        | timeout => exact h1
      | ifElse c tB eB =>
        cases eB with
        | some e =>
          obtain ⟨⟨hc, ht⟩, heB⟩ :
              (noSelfAssign c = true ∧ noSelfAssign tB = true) ∧
                noSelfAssign e = true := by
            simpa [noSelfAssign] using hok
          rcases he1 : evalStmt ctx f c cl st with ⟨res1, cl1, st1⟩
          have h1 : SelfOk st1 := by have hx := ihS c cl st hc hs; rwa [he1] at hx
          simp only [evalStmt, he1]
          cases res1 with
          | ok v => exact selfOk_ite3 (ihS tB cl1 st1 ht h1) (ihS e cl1 st1 heB h1)
          | ret r => exact h1
          | err m => exact h1
          | npe => exact h1
          | timeout => exact h1
        | none =>
          obtain ⟨hc, ht⟩ : noSelfAssign c = true ∧ noSelfAssign tB = true := by
            simpa [noSelfAssign] using hok
          rcases he1 : evalStmt ctx f c cl st with ⟨res1, cl1, st1⟩
          have h1 : SelfOk st1 := by have hx := ihS c cl st hc hs; rwa [he1] at hx
          simp only [evalStmt, he1]
          cases res1 with
          | ok v => exact selfOk_ite3 (ihS tB cl1 st1 ht h1) h1
          | ret r => exact h1
          | err m => exact h1
          | npe => exact h1
          | timeout => exact h1
      | comparison cop l r =>
        obtain ⟨hl, hr⟩ : noSelfAssign l = true ∧ noSelfAssign r = true := by
          simpa [noSelfAssign, noSelfAssignList] using hok
        rcases he1 : evalStmt ctx f l cl st with ⟨res1, cl1, st1⟩
        have h1 : SelfOk st1 := by have hx := ihS l cl st hl hs; rwa [he1] at hx
        rcases he2 : evalStmt ctx f r cl1 st1 with ⟨res2, cl2, st2⟩
        have h2 : SelfOk st2 := by have hx := ihS r cl1 st1 hr h1; rwa [he2] at hx
        simp only [evalStmt, he1]
        cases res1 with
        | ok v1 =>
          try simp only [he2]
          cases res2 with
          | ok v2 =>
            rcases hcm : applyCmp ctx f cop v1 v2 st2 with ⟨rb, st3⟩
            have h3 : SelfOk st3 := by
              have hx := ihCmp cop v1 v2 st2 h2; rwa [hcm] at hx
            try simp only [hcm]
            cases rb <;> exact h3
          | ret rr => exact h2
          | err m => exact h2
          | npe => exact h2
          | timeout => exact h2
        | ret rr => exact h1
        | err m => exact h1
        | npe => exact h1
        | timeout => exact h1
    · intro ss cl st hok hs
      cases ss with
      | nil => exact hs
      | cons s rest =>
        obtain ⟨h1s, h2s⟩ : noSelfAssign s = true ∧ noSelfAssignList rest = true := by
          simpa [noSelfAssign, noSelfAssignList] using hok
        rcases he : evalStmt ctx f s cl st with ⟨res, cl1, st1⟩
        have h1 : SelfOk st1 := by have hx := ihS s cl st h1s hs; rwa [he] at hx
        simp only [evalSeq, he]
        cases res with
        | ok v => exact ihSeq rest cl1 st1 h2s h1
        | ret r => exact h1
        | err m => exact h1
        | npe => exact h1
        | timeout => exact h1
    · intro ss cl st hok hs
      cases ss with
      | nil => exact hs
      | cons s rest =>
        obtain ⟨h1s, h2s⟩ : noSelfAssign s = true ∧ noSelfAssignList rest = true := by
          simpa [noSelfAssign, noSelfAssignList] using hok
        rcases he : evalStmt ctx f s cl st with ⟨res, cl1, st1⟩
        have h1 : SelfOk st1 := by have hx := ihS s cl st h1s hs; rwa [he] at hx
        simp only [evalArgs, he]
        cases res with
        | ok v =>
          rcases hr : evalArgs ctx f rest cl1 st1 with ⟨res2, cl2, st2⟩
          have h2 : SelfOk st2 := by
            have hx := ihA rest cl1 st1 h2s h1; rwa [hr] at hx
          try simp only [hr]
          cases res2 <;> exact h2
        | ret r => exact h1
        | err m => exact h1
        | npe => exact h1
        | timeout => exact h1
    · intro ss nf cl st hok hs
      cases ss with
      | nil => exact hs
      | cons a rest =>
        obtain ⟨has, hrest⟩ : noSelfAssign a = true ∧ noSelfAssignList rest = true := by
          simpa [noSelfAssign, noSelfAssignList] using hok
        have hs0 : SelfOk (if nf then { st with output := st.output ++ " " } else st) := by
          cases nf <;> exact hs
        rcases he : evalStmt ctx f a cl
            (if nf then { st with output := st.output ++ " " } else st) with
          ⟨res1, cl1, st1⟩
        have h1 : SelfOk st1 := by have hx := ihS a cl _ has hs0; rwa [he] at hx
        simp only [evalPrintArgs, he]
        cases res1 with
        | ok v =>
          rcases v with _ | x
          · rcases hp : evalPrintArgs ctx f rest true cl1
                { st1 with output := st1.output ++ "None" } with ⟨r2, cl2, st2⟩
            have h2 : SelfOk st2 := by
              have hx := ihP rest true cl1
                { st1 with output := st1.output ++ "None" } hrest h1
              rwa [hp] at hx
            try simp only [hp]
            exact h2
          · rcases hpv : printValue ctx f x st1 with ⟨rs, st2⟩
            have h2 : SelfOk st2 := by have hx := ihPr x st1 h1; rwa [hpv] at hx
            try simp only [hpv]
            cases rs with
            | ok sout =>
              rcases hp : evalPrintArgs ctx f rest true cl1
                  { st2 with output := st2.output ++ sout } with ⟨r3, cl3, st3⟩
              have h3 : SelfOk st3 := by
                have hx := ihP rest true cl1
                  { st2 with output := st2.output ++ sout } hrest h2
                rwa [hp] at hx
              try simp only [hp]
              exact h3
            | ret r2 => exact h2
            | err m => exact h2
            | npe => exact h2
            | timeout => exact h2
        | ret r => exact h1
        | err m => exact h1
        | npe => exact h1
        | timeout => exact h1
    · intro i nm args st hs
      refine selfOk_iteP ?_ hs
      · cases hg : getMethodAt ctx st i nm with
        | some m =>
          have hbody := getMethodAt_noSelfAssign hctx hg
          exact ihS m.body _ st hbody hs
        | none => exact hs
    · intro l r st hs
      rcases l with _ | x
      · rcases r with _ | y <;> exact hs
      · rcases r with _ | y
        · exact hs
        · cases x with
          | inst i =>
            refine selfOk_iteP ?_ hs
            · rcases hc : callMethod ctx f i "__eq__" [some y] st with ⟨rr, st1⟩
              have h1 : SelfOk st1 := by
                have hx := ihC i "__eq__" [some y] st hs; rwa [hc] at hx
              try simp only [hc]
              cases rr with
              | ok v2 =>
                rcases v2 with _ | x2
                · exact h1
                · cases x2 <;> exact h1
              | ret r2 => exact h1
              | err m => exact h1
              | npe => exact h1
              | timeout => exact h1
          | num n => cases y <;> exact hs
          | str sv => cases y <;> exact hs
          | bool b => cases y <;> exact hs
          | cls c => exact hs
    · intro l r st hs
      rcases l with _ | x
      · exact hs
      · rcases r with _ | y
        · exact hs
        · cases x with
          | inst i =>
            refine selfOk_iteP ?_ hs
            · rcases hc : callMethod ctx f i "__lt__" [some y] st with ⟨rr, st1⟩
              have h1 : SelfOk st1 := by
                have hx := ihC i "__lt__" [some y] st hs; rwa [hc] at hx
              try simp only [hc]
              cases rr with
              | ok v2 =>
                rcases v2 with _ | x2
                · exact h1
                · cases x2 <;> exact h1
              | ret r2 => exact h1
              | err m => exact h1
              | npe => exact h1
              | timeout => exact h1
          | num n => cases y <;> exact hs
          | str sv => cases y <;> exact hs
          | bool b => cases y <;> exact hs
          | cls c => exact hs
    · intro cp l r st hs
      cases cp with
      | eq => exact ihE l r st hs
      | less => exact ihL l r st hs
      | notEq =>
        rcases hq : equalFn ctx f l r st with ⟨rb, st1⟩
        have h1 : SelfOk st1 := by have hx := ihE l r st hs; rwa [hq] at hx
        simp only [applyCmp, hq]
        cases rb <;> exact h1
      | greater =>
        rcases hq : lessFn ctx f l r st with ⟨rb, st1⟩
        have h1 : SelfOk st1 := by have hx := ihL l r st hs; rwa [hq] at hx
        simp only [applyCmp, hq]
        cases rb with
        | ok b =>
          cases b with
          | true => exact h1
          | false =>
            rcases hq2 : equalFn ctx f l r st1 with ⟨rb2, st2⟩
            have h2 : SelfOk st2 := by have hx := ihE l r st1 h1; rwa [hq2] at hx
            try simp only [hq2]
            cases rb2 <;> exact h2
        | ret r2 => exact h1
        | err m => exact h1
        | npe => exact h1
        | timeout => exact h1
      | lessOrEq =>
        rcases hq : applyCmp ctx f .greater l r st with ⟨rb, st1⟩
        have h1 : SelfOk st1 := by have hx := ihCmp .greater l r st hs; rwa [hq] at hx
        simp only [applyCmp, hq]
        cases rb <;> exact h1
      | greaterOrEq =>
        rcases hq : lessFn ctx f l r st with ⟨rb, st1⟩
        have h1 : SelfOk st1 := by have hx := ihL l r st hs; rwa [hq] at hx
        simp only [applyCmp, hq]
        cases rb <;> exact h1
    · intro v st hs
      cases v with
      | num n => exact hs
      | str s => exact hs
      | bool b => exact hs
      | cls i => exact hs
      | inst i =>
        refine selfOk_iteP ?_ hs
        · rcases hc : callMethod ctx f i "__str__" [] st with ⟨rr, st1⟩
          have h1 : SelfOk st1 := by
            have hx := ihC i "__str__" [] st hs; rwa [hc] at hx
          try simp only [hc]
          cases rr with
          | ok v2 =>
            rcases v2 with _ | x2
            · exact h1
            · cases x2 with
              | inst j => exact ihPr (.inst j) st1 h1
              | num n => exact h1
              | str s => exact h1
              | bool b => exact h1
              | cls c => exact h1
          | ret r2 => exact h1
          | err m => exact h1
          | npe => exact h1
          | timeout => exact h1

/-- C8 counterexample: a `FieldAssignment` whose field name is `self`
(e.g. the program `x.self = 5`) overwrites the `self` binding of the target
instance: starting from a state satisfying the invariant, the assignment
succeeds and afterwards instance 0's `self` field holds the Number 5, not a
reference to instance 0 — so the binding is not "never changed". -/
theorem claim_C8_counterexample :
    evalStmt plainCtx 3 (.fieldAssignment ["x"] "self" (.numericConst 5))
        [("x", some (Value.inst 0))] plainState =
      (.ok (some (.num 5)), [("x", some (Value.inst 0))],
        ⟨[⟨0, [("self", some (.num 5))]⟩], ""⟩) ∧
    ¬ SelfOk ⟨[⟨0, [("self", some (.num 5))]⟩], ""⟩ := by
  constructor
  · rfl
  · intro h
    have h0 := h 0 ⟨0, [("self", some (.num 5))]⟩ rfl
    simp [lookupEntry] at h0

/-- C8 (amended): the `self` binding is seeded at instance construction
(`ClassInstance::ClassInstance`), and every instance's field scope keeps
`self` bound to that same instance through any evaluator operation —
provided no `FieldAssignment` with field name `self` occurs in the executed
statement or in any method body of the class table (such an assignment,
which the evaluator permits, is the one operation that can break it). -/
theorem claim_C8_self_binding (ctx : Ctx) (fuel : Nat) (stmt : Stmt)
    (cl : Closure) (st : EvalState) (c : Nat)
    (hctx : ctxOK ctx = true) (hst : noSelfAssign stmt = true)
    (hs : SelfOk st) :
    SelfOk (newInstanceOnHeap st c).1 ∧
    SelfOk (evalStmt ctx fuel stmt cl st).2.2 := by
  constructor
  · intro i d hg
    simp only [newInstanceOnHeap] at hg
    by_cases hi : i < st.heap.length
    · rw [List.get?_append hi] at hg
      exact hs i d hg
    · rw [List.get?_append_right (by omega)] at hg
      rcases hdiff : i - st.heap.length with _ | k
      · rw [hdiff] at hg
        simp only [List.get?] at hg
        injection hg with hg2
        subst hg2
        have hieq : i = st.heap.length := by omega
        subst hieq
        simp [lookupEntry]
      · rw [hdiff] at hg
        simp [List.get?] at hg
  · exact (selfOk_preservation ctx hctx fuel).1 stmt cl st hst hs

/-- C8 witness: the amended theorem applied to a field assignment to the
ordinary field `n` of `plainClass`'s instance: the `self` bindings survive,
and the freshly constructed instance is seeded correctly. -/
theorem claim_C8_witness :
    SelfOk (newInstanceOnHeap plainState 0).1 ∧
    SelfOk (evalStmt plainCtx 3 (.fieldAssignment ["x"] "n" (.numericConst 5))
      [("x", some (Value.inst 0))] plainState).2.2 :=
  claim_C8_self_binding plainCtx 3
    (.fieldAssignment ["x"] "n" (.numericConst 5))
    [("x", some (Value.inst 0))] plainState 0 rfl rfl
    (selfOk_of_selfOkB rfl)

end Rt

end Mython
